import Mathlib

/-!
Verification of the narrow-phase OBB collision routine `box_to_box`
(`src/dim3/collision.rs`, a port of qu3e's `q3Collide`) against its
specification.

Shallow embedding conventions:
* `f32` scalars are embedded as `ℚ`; all arithmetic of the source is
  polynomial except the single call to `f32::sqrt` hidden inside
  `Vec3::length_reciprocal` (used by `track_edge_axis`).  The square root
  is therefore taken as an explicit function parameter `sq : ℚ → ℚ`;
  every theorem quantifies over it, and `sqrtQ` below is an executable
  instantiation (exact on perfect squares) used for concrete evaluations.
* Float literals of the source (`0.95`, `0.01`, `0.005`, `1.0e-6`) are
  embedded as the corresponding decimal rationals, `f32::MIN` as the exact
  value of the smallest finite `f32`, `u32::MAX` and `u8::MAX` as their
  integer values.
* The types `Transform`, `Obb`, `Contact` and `Manifold` come from sibling
  modules of the repository that are not part of the given source; they are
  modelled from the spec (§3) as noted on each definition.
-/

namespace Physme

/-- 3D vector over ℚ (models `bevy::math::Vec3` with `f32` ↦ `ℚ`). -/
structure Vec3 where
  x : ℚ
  y : ℚ
  z : ℚ
deriving DecidableEq, Repr

namespace Vec3

def add (a b : Vec3) : Vec3 := ⟨a.x + b.x, a.y + b.y, a.z + b.z⟩

def sub (a b : Vec3) : Vec3 := ⟨a.x - b.x, a.y - b.y, a.z - b.z⟩

def neg (a : Vec3) : Vec3 := ⟨-a.x, -a.y, -a.z⟩

/-- scalar multiplication `v * s` (glam `Vec3 * f32`). -/
def smul (a : Vec3) (k : ℚ) : Vec3 := ⟨a.x * k, a.y * k, a.z * k⟩

/-- componentwise multiplication (glam `Vec3 * Vec3`). -/
def cmul (a b : Vec3) : Vec3 := ⟨a.x * b.x, a.y * b.y, a.z * b.z⟩

def dot (a b : Vec3) : ℚ := a.x * b.x + a.y * b.y + a.z * b.z

def cross (a b : Vec3) : Vec3 :=
  ⟨a.y * b.z - a.z * b.y, a.z * b.x - a.x * b.z, a.x * b.y - a.y * b.x⟩

def vabs (a : Vec3) : Vec3 := ⟨|a.x|, |a.y|, |a.z|⟩

/-- glam `Vec3::sign`: `1` where the component is `≥ 0`, else `-1`. -/
def vsign (a : Vec3) : Vec3 :=
  ⟨if 0 ≤ a.x then 1 else -1, if 0 ≤ a.y then 1 else -1, if 0 ≤ a.z then 1 else -1⟩

/-- component access `v[i]` (only indices 0 and 1 are ever used by `orthographic`). -/
def get (a : Vec3) : ℕ → ℚ
  | 0 => a.x
  | 1 => a.y
  | _ => a.z

def zero : Vec3 := ⟨0, 0, 0⟩

end Vec3

instance : Add Vec3 := ⟨Vec3.add⟩

instance : Sub Vec3 := ⟨Vec3.sub⟩

instance : Neg Vec3 := ⟨Vec3.neg⟩

instance : HMul Vec3 ℚ Vec3 := ⟨Vec3.smul⟩

/-- Quaternion over ℚ (models `bevy::math::Quat`). -/
structure Quat where
  x : ℚ
  y : ℚ
  z : ℚ
  w : ℚ
deriving DecidableEq, Repr

namespace Quat

def conj (q : Quat) : Quat := ⟨-q.x, -q.y, -q.z, q.w⟩

/-- Hamilton product (glam `Quat * Quat`). -/
def qmul (p q : Quat) : Quat :=
  ⟨p.w * q.x + p.x * q.w + p.y * q.z - p.z * q.y,
   p.w * q.y - p.x * q.z + p.y * q.w + p.z * q.x,
   p.w * q.z + p.x * q.y - p.y * q.x + p.z * q.w,
   p.w * q.w - p.x * q.x - p.y * q.y - p.z * q.z⟩

/-- glam `Quat::mul_vec3`:
`v * (w*w - b·b) + b * (v·b * 2) + (b × v) * (w * 2)` with `b` the vector part. -/
def rotate (q : Quat) (v : Vec3) : Vec3 :=
  let b : Vec3 := ⟨q.x, q.y, q.z⟩
  let b2 : ℚ := b.dot b
  v * (q.w * q.w - b2) + b * (v.dot b * 2) + b.cross v * (q.w * 2)

def normSq (q : Quat) : ℚ := q.x * q.x + q.y * q.y + q.z * q.z + q.w * q.w

def id : Quat := ⟨0, 0, 0, 1⟩

end Quat

/-- 3×3 matrix over ℚ stored as columns (glam `Mat3` `x_axis`/`y_axis`/`z_axis`). -/
structure Mat3 where
  xAxis : Vec3
  yAxis : Vec3
  zAxis : Vec3
deriving DecidableEq, Repr

namespace Mat3

/-- `to_cols_array_2d()[i]` — the i-th column. -/
def col (m : Mat3) : ℕ → Vec3
  | 0 => m.xAxis
  | 1 => m.yAxis
  | _ => m.zAxis

/-- `ca[i][j]`: j-th component of the i-th column. -/
def entry (m : Mat3) (i j : ℕ) : ℚ := (m.col i).get j

def transpose (m : Mat3) : Mat3 :=
  ⟨⟨m.xAxis.x, m.yAxis.x, m.zAxis.x⟩,
   ⟨m.xAxis.y, m.yAxis.y, m.zAxis.y⟩,
   ⟨m.xAxis.z, m.yAxis.z, m.zAxis.z⟩⟩

/-- `Mat3Ext::row{0,1,2}` = `transpose().column{0,1,2}`. -/
def row (m : Mat3) (i : ℕ) : Vec3 := m.transpose.col i

/-- matrix · vector. -/
def mulVec (m : Mat3) (v : Vec3) : Vec3 := m.xAxis * v.x + m.yAxis * v.y + m.zAxis * v.z

/-- `Mult for Mat3`: `self.transpose() * v`. -/
def mult (m : Mat3) (v : Vec3) : Vec3 := m.transpose.mulVec v

/-- glam `Mat3::from_quat`. -/
def fromQuat (q : Quat) : Mat3 :=
  let x2 := q.x + q.x
  let y2 := q.y + q.y
  let z2 := q.z + q.z
  let xx := q.x * x2
  let xy := q.x * y2
  let xz := q.x * z2
  let yy := q.y * y2
  let yz := q.y * z2
  let zz := q.z * z2
  let wx := q.w * x2
  let wy := q.w * y2
  let wz := q.w * z2
  ⟨⟨1 - (yy + zz), xy + wz, xz - wy⟩,
   ⟨xy - wz, 1 - (xx + zz), yz + wx⟩,
   ⟨xz + wy, yz - wx, 1 - (xx + yy)⟩⟩

end Mat3

/-- Modelled from the spec: `Transform` (§3) is "a rigid transform composed of a
translation (3D vector) and a rotation (unit quaternion)".  The source composes
the cached `Mat4` values (`*atx.value_mut() = *atx.value() * *al.value()`) and
then reads `rotation()`/`translation()`/`value()` of the combined transform;
per §2 stage 1 the combination is "a single world transform per box", so the
matrix product of rigid transforms is modelled as transform composition with
rotation and translation kept in sync. -/
structure Transform where
  translation : Vec3
  rotation : Quat
deriving DecidableEq, Repr

namespace Transform

/-- composition `parent ∘ local` (the `Mat4` product of the source). -/
def compose (a b : Transform) : Transform :=
  ⟨a.translation + a.rotation.rotate b.translation, a.rotation.qmul b.rotation⟩

/-- `Mult for Transform`: `rotation().conjugate() * (v - translation())`. -/
def tmult (t : Transform) (v : Vec3) : Vec3 := t.rotation.conj.rotate (v - t.translation)

/-- `value().transform_point3(p)`: rotation matrix times `p` plus translation. -/
def tp3 (t : Transform) (p : Vec3) : Vec3 := (Mat3.fromQuat t.rotation).mulVec p + t.translation

/-- `value().truncate()`: the 3×3 rotation block of the combined transform. -/
def trunc (t : Transform) : Mat3 := Mat3.fromQuat t.rotation

def idt : Transform := ⟨Vec3.zero, Quat.id⟩

end Transform

/-- Modelled from the spec: an `Obb` (§3 "Box") carries a body reference, a world
transform, a local transform offset and a per-axis half-extent vector.  The Rust
field `local` is a Lean keyword and is named `localOffset` here. -/
structure Obb where
  body : ℕ
  transform : Transform
  localOffset : Transform
  extent : Vec3
deriving DecidableEq, Repr

/-- `FeaturePair` (collision.rs): four ids, `u8::MAX = 255` meaning unset. -/
structure FeaturePair where
  inr : ℕ
  outr : ℕ
  ini : ℕ
  outi : ℕ
deriving DecidableEq, Repr

def FeaturePair.default : FeaturePair := ⟨255, 255, 255, 255⟩

/-- `ClipVertex`: position plus feature tag. -/
structure ClipVertex where
  v : Vec3
  f : FeaturePair
deriving DecidableEq, Repr

/-- Modelled from the spec: a `Contact` (§3) is a world position and a signed
penetration depth. -/
structure Contact where
  position : Vec3
  penetration : ℚ
deriving DecidableEq, Repr

/-- Modelled from the spec: a `Manifold` (§3) holds the two body references, the
separating normal, the overall penetration and the contact list. -/
structure Manifold where
  body1 : ℕ
  body2 : ℕ
  normal : Vec3
  penetration : ℚ
  contacts : List Contact
deriving DecidableEq, Repr

/-- result of `track_face_axis` (collision.rs lines 82-100). -/
inductive TrackFaceAxis where
  | noCollision : TrackFaceAxis
  | better (axis : ℕ) (max : ℚ) (normal : Vec3) : TrackFaceAxis
  | keep : TrackFaceAxis
deriving DecidableEq, Repr

def track_face_axis (n : ℕ) (s : ℚ) (smax : ℚ) (normal : Vec3) : TrackFaceAxis :=
  if 0 < s then TrackFaceAxis.noCollision
  else if smax < s then TrackFaceAxis.better n s normal
  else TrackFaceAxis.keep

/-- `Vec3::length_reciprocal` = `1.0 / length()` with `length = sqrt (self · self)`. -/
def lengthReciprocal (sq : ℚ → ℚ) (v : Vec3) : ℚ := 1 / sq (v.dot v)

/-- `track_edge_axis` (collision.rs lines 102-124): the raw separation is scaled
by the reciprocal of the un-normalized axis length before comparison, and the
stored normal is normalized with the same factor. -/
def track_edge_axis (sq : ℚ → ℚ) (n : ℕ) (s : ℚ) (smax : ℚ) (normal : Vec3) :
    TrackFaceAxis :=
  if 0 < s then TrackFaceAxis.noCollision
  else if smax < s * lengthReciprocal sq normal then
    TrackFaceAxis.better n (s * lengthReciprocal sq normal)
      (normal * lengthReciprocal sq normal)
  else TrackFaceAxis.keep

def mkIncident (p : Vec3) (ini outi : ℕ) : ClipVertex :=
  ⟨p, { FeaturePair.default with ini := ini, outi := outi }⟩

/-- `compute_incident_face` (collision.rs lines 151-414). -/
def compute_incident_face (itx : Transform) (e : Vec3) (n0 : Vec3) : List ClipVertex :=
  let n := -(itx.rotation.conj.rotate n0)
  let a := n.vabs
  if a.x > a.y ∧ a.x > a.z then
    if 0 < n.x then
      [mkIncident (itx.tp3 ⟨e.x, e.y, -e.z⟩) 9 1,
       mkIncident (itx.tp3 ⟨e.x, e.y, e.z⟩) 1 8,
       mkIncident (itx.tp3 ⟨e.x, -e.y, e.z⟩) 8 7,
       mkIncident (itx.tp3 ⟨e.x, -e.y, -e.z⟩) 7 9]
    else
      [mkIncident (itx.tp3 ⟨-e.x, -e.y, e.z⟩) 5 11,
       mkIncident (itx.tp3 ⟨-e.x, e.y, e.z⟩) 11 3,
       mkIncident (itx.tp3 ⟨-e.x, e.y, -e.z⟩) 3 10,
       mkIncident (itx.tp3 ⟨-e.x, -e.y, -e.z⟩) 10 5]
  else if a.y > a.x ∧ a.y > a.z then
    if 0 < n.y then
      [mkIncident (itx.tp3 ⟨-e.x, e.y, e.z⟩) 3 0,
       mkIncident (itx.tp3 ⟨e.x, e.y, e.z⟩) 0 1,
       mkIncident (itx.tp3 ⟨e.x, e.y, -e.z⟩) 1 2,
       mkIncident (itx.tp3 ⟨-e.x, e.y, -e.z⟩) 2 3]
    else
      [mkIncident (itx.tp3 ⟨e.x, -e.y, e.z⟩) 7 4,
       mkIncident (itx.tp3 ⟨-e.x, -e.y, e.z⟩) 4 5,
       mkIncident (itx.tp3 ⟨-e.x, -e.y, -e.z⟩) 5 6,
       mkIncident (itx.tp3 ⟨e.x, -e.y, -e.z⟩) 6 7]
  else
    if 0 < n.z then
      [mkIncident (itx.tp3 ⟨-e.x, e.y, e.z⟩) 0 11,
       mkIncident (itx.tp3 ⟨-e.x, -e.y, e.z⟩) 11 4,
       mkIncident (itx.tp3 ⟨e.x, -e.y, e.z⟩) 4 8,
       mkIncident (itx.tp3 ⟨e.x, e.y, e.z⟩) 8 0]
    else
      [mkIncident (itx.tp3 ⟨e.x, -e.y, -e.z⟩) 9 6,
       mkIncident (itx.tp3 ⟨-e.x, -e.y, -e.z⟩) 6 10,
       mkIncident (itx.tp3 ⟨-e.x, e.y, -e.z⟩) 10 2,
       mkIncident (itx.tp3 ⟨e.x, e.y, -e.z⟩) 2 9]

/-- the four clip edge ids of `RefEb` (`[u8; 4]`). -/
structure CEdges where
  e0 : ℕ
  e1 : ℕ
  e2 : ℕ
  e3 : ℕ
deriving DecidableEq, Repr

structure RefEb where
  clip_edges : CEdges
  basis : Mat3
  e : Vec3
deriving DecidableEq, Repr

/-- axis index adjustment at the head of `compute_reference_edges_and_basis`. -/
def adjAxis (axis : ℕ) : ℕ := if 3 ≤ axis then axis - 3 else axis

/-- `compute_reference_edges_and_basis` (collision.rs lines 422-508); the
`unimplemented!()` arm (adjusted axis ≥ 3) is modelled by a junk value, and
reachability of that arm is excluded separately (see the safety claim). -/
def compute_reference_edges_and_basis (er : Vec3) (rtx : Transform) (n0 : Vec3)
    (axis0 : ℕ) : RefEb :=
  let n := rtx.rotation.conj.rotate n0
  let axis := adjAxis axis0
  let rr := (Mat3.fromQuat rtx.rotation).transpose
  if axis = 0 then
    if 0 < n.x then
      ⟨⟨1, 8, 7, 9⟩, (Mat3.mk (rr.col 1) (rr.col 2) (rr.col 0)).transpose,
        ⟨er.y, er.z, er.x⟩⟩
    else
      ⟨⟨11, 3, 10, 5⟩, (Mat3.mk (rr.col 2) (rr.col 1) (-(rr.col 0) : Vec3)).transpose,
        ⟨er.z, er.y, er.x⟩⟩
  else if axis = 1 then
    if 0 < n.y then
      ⟨⟨0, 1, 2, 3⟩, (Mat3.mk (rr.col 2) (rr.col 0) (rr.col 1)).transpose,
        ⟨er.z, er.x, er.y⟩⟩
    else
      ⟨⟨4, 5, 6, 7⟩, (Mat3.mk (rr.col 2) (-(rr.col 0) : Vec3) (-(rr.col 1) : Vec3)).transpose,
        ⟨er.z, er.x, er.y⟩⟩
  else if axis = 2 then
    if 0 < n.z then
      ⟨⟨11, 4, 8, 0⟩, (Mat3.mk (-(rr.col 1) : Vec3) (rr.col 0) (rr.col 2)).transpose,
        ⟨er.y, er.x, er.z⟩⟩
    else
      ⟨⟨6, 10, 2, 9⟩,
        (Mat3.mk (-(rr.col 1) : Vec3) (-(rr.col 0) : Vec3) (-(rr.col 2) : Vec3)).transpose,
        ⟨er.y, er.x, er.z⟩⟩
  else
    ⟨⟨0, 0, 0, 0⟩, Mat3.fromQuat Quat.id, Vec3.zero⟩

def inFront (a : ℚ) : Prop := a < 0

def behindP (a : ℚ) : Prop := 0 ≤ a

def onPlane (a : ℚ) : Prop := a < 5 / 1000 ∧ -(5 / 1000) < a

instance (a : ℚ) : Decidable (inFront a) := inferInstanceAs (Decidable (a < 0))

instance (a : ℚ) : Decidable (behindP a) := inferInstanceAs (Decidable (0 ≤ a))

instance (a : ℚ) : Decidable (onPlane a) := instDecidableAnd

/-- one iteration of the `for b in vin` loop of `orthographic`
(collision.rs lines 532-565): the output pushed for the pair `(a, b)`. -/
def orthoPair (sign e : ℚ) (axis ce : ℕ) (a b : ClipVertex) : List ClipVertex :=
  let da := sign * a.v.get axis - e
  let db := sign * b.v.get axis - e
  if (inFront da ∧ inFront db) ∨ onPlane da ∨ onPlane db then [b]
  else if inFront da ∧ behindP db then
    [⟨a.v + (b.v - a.v) * (da / (da - db)), { b.f with outr := ce, outi := 0 }⟩]
  else if behindP da ∧ inFront db then
    [⟨a.v + (b.v - a.v) * (da / (da - db)), { a.f with inr := ce, ini := 0 }⟩, b]
  else []

def orthoLoop (sign e : ℚ) (axis ce : ℕ) : ClipVertex → List ClipVertex → List ClipVertex
  | _, [] => []
  | a, b :: rest => orthoPair sign e axis ce a b ++ orthoLoop sign e axis ce b rest

/-- `orthographic` (collision.rs lines 510-568): the loop starts with
`a = vin.last().unwrap()`; an empty input (where the source would panic) is
modelled by an empty output, and non-emptiness at every call site is part of
the safety claim. -/
def orthographic (sign e : ℚ) (axis ce : ℕ) (vin : List ClipVertex) : List ClipVertex :=
  match vin.getLast? with
  | Option.none => []
  | Option.some a0 => orthoLoop sign e axis ce a0 vin

/-- the vertex list built at the head of `clip` (incident vertices expressed in
the reference basis). -/
def clipVin (rpos : Vec3) (basis : Mat3) (incident : List ClipVertex) : List ClipVertex :=
  incident.map (fun inc => ⟨basis.mult (inc.v - rpos), inc.f⟩)

def clipP1 (rpos : Vec3) (e : Vec3) (ces : CEdges) (basis : Mat3)
    (incident : List ClipVertex) : List ClipVertex :=
  orthographic 1 e.x 0 ces.e0 (clipVin rpos basis incident)

def clipP2 (rpos : Vec3) (e : Vec3) (ces : CEdges) (basis : Mat3)
    (incident : List ClipVertex) : List ClipVertex :=
  orthographic 1 e.y 1 ces.e1 (clipP1 rpos e ces basis incident)

def clipP3 (rpos : Vec3) (e : Vec3) (ces : CEdges) (basis : Mat3)
    (incident : List ClipVertex) : List ClipVertex :=
  orthographic (-1) e.x 0 ces.e2 (clipP2 rpos e ces basis incident)

def clipP4 (rpos : Vec3) (e : Vec3) (ces : CEdges) (basis : Mat3)
    (incident : List ClipVertex) : List ClipVertex :=
  orthographic (-1) e.y 1 ces.e3 (clipP3 rpos e ces basis incident)

/-- `clip` (collision.rs lines 575-624): four Sutherland–Hodgman passes with
early exit on emptiness, then the depth filter `d = z - e.z ≤ 0`. -/
def clip (rpos : Vec3) (e : Vec3) (ces : CEdges) (basis : Mat3)
    (incident : List ClipVertex) : List (ClipVertex × ℚ) :=
  if clipP1 rpos e ces basis incident = [] then []
  else if clipP2 rpos e ces basis incident = [] then []
  else if clipP3 rpos e ces basis incident = [] then []
  else
    (clipP4 rpos e ces basis incident).filterMap (fun cv =>
      let d := cv.v.z - e.z
      if d ≤ 0 then Option.some (⟨basis.mulVec cv.v + rpos, cv.f⟩, d) else Option.none)

/-- `edges_contact` (collision.rs lines 626-642); `ℚ` division is total with
`x / 0 = 0`, the nonvanishing of both denominators on reachable paths is part
of the safety claim. -/
def edges_contact (pa qa pb qb : Vec3) : Vec3 × Vec3 :=
  let da := qa - pa
  let db := qb - pb
  let r := pa - pb
  let a := da.dot da
  let e := db.dot db
  let f := db.dot r
  let c := da.dot r
  let b := da.dot db
  let denom := a * e - b * b
  let ta := (b * f - c * e) / denom
  let tb := (b * ta + f) / e
  (pa + da * ta, pb + db * tb)

/-- `support_edge` (collision.rs lines 644-677). -/
def support_edge (tx : Transform) (e : Vec3) (n0 : Vec3) : Vec3 × Vec3 :=
  let n := tx.rotation.conj.rotate n0
  let an := n.vabs
  let ab : Vec3 × Vec3 :=
    if an.x > an.y then
      if an.y > an.z then (⟨e.x, e.y, e.z⟩, ⟨e.x, e.y, -e.z⟩)
      else (⟨e.x, e.y, e.z⟩, ⟨e.x, -e.y, e.z⟩)
    else
      if an.x > an.z then (⟨e.x, e.y, e.z⟩, ⟨e.x, e.y, -e.z⟩)
      else (⟨e.x, e.y, e.z⟩, ⟨-e.x, e.y, e.z⟩)
  let s := n.vsign
  (tx.tp3 (ab.1.cmul s), tx.tp3 (ab.2.cmul s))

/-- `u32::MAX`, the axis sentinel. -/
def u32Max : ℕ := 4294967295

/-- the exact value of `f32::MIN`, the smallest finite `f32`. -/
def f32Min : ℚ := -(340282346638528859811704183484516925440 : ℚ)

/-- the near-parallel epsilon `1.0e-6` of `box_to_box`. -/
def parEps : ℚ := 1 / 1000000

/-- the data computed at the head of `box_to_box` (collision.rs lines 680-712):
combined transforms, extents, relative rotation matrix `C`, its absolute-value
matrix, the near-parallel flag, and the center offset `t` in A's frame. -/
structure Setup where
  atx : Transform
  btx : Transform
  ea : Vec3
  eb : Vec3
  c : Mat3
  absc : Mat3
  parallel : Bool
  t : Vec3
deriving DecidableEq, Repr

def setup (a b : Obb) : Setup :=
  let atx := a.transform.compose a.localOffset
  let btx := b.transform.compose b.localOffset
  let c := Mat3.fromQuat (atx.rotation.conj.qmul btx.rotation)
  let av : ℕ → ℕ → ℚ := fun i j => |c.entry i j|
  let parallel : Bool :=
    decide (1 ≤ av 0 0 + parEps) || decide (1 ≤ av 0 1 + parEps) ||
    decide (1 ≤ av 0 2 + parEps) || decide (1 ≤ av 1 0 + parEps) ||
    decide (1 ≤ av 1 1 + parEps) || decide (1 ≤ av 1 2 + parEps) ||
    decide (1 ≤ av 2 0 + parEps) || decide (1 ≤ av 2 1 + parEps) ||
    decide (1 ≤ av 2 2 + parEps)
  { atx := atx, btx := btx, ea := a.extent, eb := b.extent, c := c,
    absc := ⟨⟨av 0 0, av 0 1, av 0 2⟩, ⟨av 1 0, av 1 1, av 1 2⟩, ⟨av 2 0, av 2 1, av 2 2⟩⟩,
    parallel := parallel,
    t := atx.rotation.conj.rotate (btx.translation - atx.translation) }

/-- the six face-axis separations of `box_to_box` (lines 727-793). -/
def faceS (st : Setup) : ℕ → ℚ
  | 0 => |st.t.x| - (st.ea.x + (st.absc.col 0).dot st.eb)
  | 1 => |st.t.y| - (st.ea.y + (st.absc.col 1).dot st.eb)
  | 2 => |st.t.z| - (st.ea.z + (st.absc.col 2).dot st.eb)
  | 3 => |st.t.dot (st.c.row 0)| - (st.eb.x + (st.absc.row 0).dot st.ea)
  | 4 => |st.t.dot (st.c.row 1)| - (st.eb.y + (st.absc.row 1).dot st.ea)
  | 5 => |st.t.dot (st.c.row 2)| - (st.eb.z + (st.absc.row 2).dot st.ea)
  | _ => 0

/-- the six face-axis candidate normals (rows of the combined rotation blocks). -/
def faceN (st : Setup) : ℕ → Vec3
  | 0 => st.atx.trunc.row 0
  | 1 => st.atx.trunc.row 1
  | 2 => st.atx.trunc.row 2
  | 3 => st.btx.trunc.row 0
  | 4 => st.btx.trunc.row 1
  | 5 => st.btx.trunc.row 2
  | _ => Vec3.zero

/-- the nine edge-axis separations of `box_to_box` (lines 795-924), indices 6-14,
before the scaling inside `track_edge_axis`. -/
def edgeS (st : Setup) : ℕ → ℚ
  | 6 => |st.t.z * st.c.entry 1 0 - st.t.y * st.c.entry 2 0| -
      (st.ea.y * st.absc.entry 2 0 + st.ea.z * st.absc.entry 1 0 +
       (st.eb.y * st.absc.entry 0 2 + st.eb.z * st.absc.entry 0 1))
  | 7 => |st.t.z * st.c.entry 1 1 - st.t.y * st.c.entry 2 1| -
      (st.ea.y * st.absc.entry 2 1 + st.ea.z * st.absc.entry 1 1 +
       (st.eb.x * st.absc.entry 0 2 + st.eb.z * st.absc.entry 0 0))
  | 8 => |st.t.z * st.c.entry 1 2 - st.t.y * st.c.entry 2 2| -
      (st.ea.y * st.absc.entry 2 2 + st.ea.z * st.absc.entry 1 2 +
       (st.eb.x * st.absc.entry 0 1 + st.eb.y * st.absc.entry 0 0))
  | 9 => |st.t.x * st.c.entry 2 0 - st.t.z * st.c.entry 0 0| -
      (st.ea.x * st.absc.entry 2 0 + st.ea.z * st.absc.entry 0 0 +
       (st.eb.y * st.absc.entry 1 2 + st.eb.z * st.absc.entry 1 1))
  | 10 => |st.t.x * st.c.entry 2 1 - st.t.z * st.c.entry 0 1| -
      (st.ea.x * st.absc.entry 2 1 + st.ea.z * st.absc.entry 0 1 +
       (st.eb.x * st.absc.entry 1 2 + st.eb.z * st.absc.entry 1 0))
  | 11 => |st.t.x * st.c.entry 2 2 - st.t.z * st.c.entry 0 2| -
      (st.ea.x * st.absc.entry 2 2 + st.ea.z * st.absc.entry 0 2 +
       (st.eb.x * st.absc.entry 1 1 + st.eb.y * st.absc.entry 1 0))
  | 12 => |st.t.y * st.c.entry 0 0 - st.t.x * st.c.entry 1 0| -
      (st.ea.x * st.absc.entry 1 0 + st.ea.y * st.absc.entry 0 0 +
       (st.eb.y * st.absc.entry 2 2 + st.eb.z * st.absc.entry 2 1))
  | 13 => |st.t.y * st.c.entry 0 1 - st.t.x * st.c.entry 1 1| -
      (st.ea.x * st.absc.entry 1 1 + st.ea.y * st.absc.entry 0 1 +
       (st.eb.x * st.absc.entry 2 2 + st.eb.z * st.absc.entry 2 0))
  | 14 => |st.t.y * st.c.entry 0 2 - st.t.x * st.c.entry 1 2| -
      (st.ea.x * st.absc.entry 1 2 + st.ea.y * st.absc.entry 0 2 +
       (st.eb.x * st.absc.entry 2 1 + st.eb.y * st.absc.entry 2 0))
  | _ => 0

/-- the nine edge-axis candidate normals (A-local, un-normalized). -/
def edgeN (st : Setup) : ℕ → Vec3
  | 6 => ⟨0, -(st.c.entry 2 0), st.c.entry 1 0⟩
  | 7 => ⟨0, -(st.c.entry 2 1), st.c.entry 1 1⟩
  | 8 => ⟨0, -(st.c.entry 2 2), st.c.entry 1 2⟩
  | 9 => ⟨st.c.entry 2 0, 0, -(st.c.entry 0 0)⟩
  | 10 => ⟨st.c.entry 2 1, 0, -(st.c.entry 0 1)⟩
  | 11 => ⟨st.c.entry 2 2, 0, -(st.c.entry 0 2)⟩
  | 12 => ⟨-(st.c.entry 1 0), st.c.entry 0 0, 0⟩
  | 13 => ⟨-(st.c.entry 1 1), st.c.entry 0 1, 0⟩
  | 14 => ⟨-(st.c.entry 1 2), st.c.entry 0 2, 0⟩
  | _ => Vec3.zero

/-- the best-axis accumulator of the separating-axis search. -/
structure SearchSt where
  amax : ℚ
  aaxis : ℕ
  na : Vec3
  bmax : ℚ
  baxis : ℕ
  nb : Vec3
  emax : ℚ
  eaxis : ℕ
  ne : Vec3
deriving DecidableEq, Repr

def SearchSt.init : SearchSt :=
  ⟨f32Min, u32Max, Vec3.zero, f32Min, u32Max, Vec3.zero, f32Min, u32Max, Vec3.zero⟩

/-- one face-A axis evaluation in `box_to_box`. -/
def stepA (st : Setup) (i : ℕ) (r : SearchSt) : Option SearchSt :=
  match track_face_axis i (faceS st i) r.amax (faceN st i) with
  | TrackFaceAxis.noCollision => Option.none
  | TrackFaceAxis.better ax mx nm => Option.some { r with amax := mx, aaxis := ax, na := nm }
  | TrackFaceAxis.keep => Option.some r

/-- one face-B axis evaluation in `box_to_box`. -/
def stepB (st : Setup) (i : ℕ) (r : SearchSt) : Option SearchSt :=
  match track_face_axis i (faceS st i) r.bmax (faceN st i) with
  | TrackFaceAxis.noCollision => Option.none
  | TrackFaceAxis.better ax mx nm => Option.some { r with bmax := mx, baxis := ax, nb := nm }
  | TrackFaceAxis.keep => Option.some r

/-- one edge axis evaluation in `box_to_box`. -/
def stepE (sq : ℚ → ℚ) (st : Setup) (i : ℕ) (r : SearchSt) : Option SearchSt :=
  match track_edge_axis sq i (edgeS st i) r.emax (edgeN st i) with
  | TrackFaceAxis.noCollision => Option.none
  | TrackFaceAxis.better ax mx nm => Option.some { r with emax := mx, eaxis := ax, ne := nm }
  | TrackFaceAxis.keep => Option.some r

/-- the six face-axis evaluations (collision.rs lines 727-793). -/
def facePhase (st : Setup) : Option SearchSt :=
  (((((stepA st 0 SearchSt.init).bind (stepA st 1)).bind (stepA st 2)).bind
    (stepB st 3)).bind (stepB st 4)).bind (stepB st 5)

/-- the nine edge-axis evaluations (collision.rs lines 795-924). -/
def edgePhase (sq : ℚ → ℚ) (st : Setup) (r : SearchSt) : Option SearchSt :=
  ((((((((stepE sq st 6 r).bind (stepE sq st 7)).bind (stepE sq st 8)).bind
    (stepE sq st 9)).bind (stepE sq st 10)).bind (stepE sq st 11)).bind
    (stepE sq st 12)).bind (stepE sq st 13)).bind (stepE sq st 14)

/-- the full separating-axis search: face axes, then — only when the boxes are
not flagged near-parallel — the edge axes. -/
def searchPhase (sq : ℚ → ℚ) (st : Setup) : Option SearchSt :=
  (facePhase st).bind (fun r => if st.parallel then Option.some r else edgePhase sq st r)

def REL_TOLERANCE : ℚ := 95 / 100

def ABS_TOLERANCE : ℚ := 1 / 100

/-- result of axis selection. -/
structure Sel where
  axis : ℕ
  smax : ℚ
  n : Vec3
deriving DecidableEq, Repr

/-- axis selection (collision.rs lines 926-945): the biased comparison between
the best edge margin and the best face margins, then between face B and face A. -/
def select (r : SearchSt) : Sel :=
  if max r.amax r.bmax + ABS_TOLERANCE < REL_TOLERANCE * r.emax then ⟨r.eaxis, r.emax, r.ne⟩
  else if r.amax + ABS_TOLERANCE < REL_TOLERANCE * r.bmax then ⟨r.baxis, r.bmax, r.nb⟩
  else ⟨r.aaxis, r.amax, r.na⟩

/-- the face-contact branch of `box_to_box` (collision.rs lines 955-1006). -/
def faceCase (a b : Obb) (st : Setup) (axis : ℕ) (smax : ℚ) (n0 : Vec3) :
    Option Manifold :=
  let rtx := if axis < 3 then st.atx else st.btx
  let itx := if axis < 3 then st.btx else st.atx
  let er := if axis < 3 then st.ea else st.eb
  let ei := if axis < 3 then st.eb else st.ea
  let flip : Bool := decide (¬ axis < 3)
  let n := if axis < 3 then n0 else -n0
  let incident := compute_incident_face itx ei n
  let refeb := compute_reference_edges_and_basis er rtx n axis
  let out := clip rtx.translation refeb.e refeb.clip_edges refeb.basis incident
  if 0 < out.length then
    Option.some
      { body1 := a.body, body2 := b.body,
        normal := if flip then -n else n,
        penetration := smax,
        contacts := out.map (fun vd => ⟨vd.1.v, vd.2⟩) }
  else Option.none

/-- the orientation flip applied to the selected normal (lines 947-949 and
1010-1012): negate when it points against the center offset. -/
def oriFlip (n d : Vec3) : Vec3 := if n.dot d < 0 then -n else n

/-- the edge-contact branch of `box_to_box` (collision.rs lines 1007-1030). -/
def edgeCase (a b : Obb) (st : Setup) (smax : ℚ) (n0 : Vec3) : Option Manifold :=
  let n1 := st.atx.rotation.rotate n0
  let n := oriFlip n1 (st.btx.translation - st.atx.translation)
  let ae := support_edge st.atx st.ea n
  let be := support_edge st.btx st.eb (-n)
  let cab := edges_contact ae.1 ae.2 be.1 be.2
  Option.some
    { body1 := a.body, body2 := b.body, normal := n, penetration := smax,
      contacts := [⟨(cab.1 + cab.2) * ((1 : ℚ) / 2), smax⟩] }

/-- `box_to_box` (collision.rs lines 679-1031). -/
def box_to_box (sq : ℚ → ℚ) (a b : Obb) : Option Manifold :=
  let st := setup a b
  match searchPhase sq st with
  | Option.none => Option.none
  | Option.some r =>
    let sel := select r
    let n1 := oriFlip sel.n (st.btx.translation - st.atx.translation)
    if sel.axis = u32Max then Option.none
    else if sel.axis < 6 then faceCase a b st sel.axis sel.smax n1
    else edgeCase a b st sel.smax n1

/-- executable model of `f32::sqrt` used for concrete evaluations: exact on
perfect squares of rationals, floor-based approximation otherwise,
`0` on nonpositive input. -/
def sqrtQ (x : ℚ) : ℚ :=
  if x ≤ 0 then 0
  else
    let n := x.num.toNat
    let d := x.den
    if Nat.sqrt n * Nat.sqrt n = n ∧ Nat.sqrt d * Nat.sqrt d = d then
      (Nat.sqrt n : ℚ) / (Nat.sqrt d : ℚ)
    else (Nat.sqrt (n * d) : ℚ) / (d : ℚ)

/-- the two denominators of `edges_contact` are nonvanishing. -/
def edgesDomainOk (pa qa pb qb : Vec3) : Prop :=
  ((qa - pa).dot (qa - pa)) * ((qb - pb).dot (qb - pb)) -
      ((qa - pa).dot (qb - pb)) * ((qa - pa).dot (qb - pb)) ≠ 0 ∧
    (qb - pb).dot (qb - pb) ≠ 0

/-- the domain conditions for panic freedom claimed by the spec, following the
control flow of `box_to_box`: on the face path, the `unwrap` of the last input
vertex needs a nonempty list at each executed `orthographic` call (later calls
only run when the preceding pass was nonempty), and the reference-basis
construction must not hit its `unimplemented!()` arm; on the edge path both
divisions of `edges_contact` need nonzero denominators. -/
def box_to_box_domains (sq : ℚ → ℚ) (a b : Obb) : Prop :=
  match searchPhase sq (setup a b) with
  | Option.none => True
  | Option.some r =>
    let st := setup a b
    let sel := select r
    let n1 := oriFlip sel.n (st.btx.translation - st.atx.translation)
    if sel.axis = u32Max then True
    else if sel.axis < 6 then
      adjAxis sel.axis < 3 ∧
      (let n := if sel.axis < 3 then n1 else -n1
       let rtx := if sel.axis < 3 then st.atx else st.btx
       let itx := if sel.axis < 3 then st.btx else st.atx
       let er := if sel.axis < 3 then st.ea else st.eb
       let ei := if sel.axis < 3 then st.eb else st.ea
       let refeb := compute_reference_edges_and_basis er rtx n sel.axis
       let inc := compute_incident_face itx ei n
       clipVin rtx.translation refeb.basis inc ≠ [] ∧
       (clipP1 rtx.translation refeb.e refeb.clip_edges refeb.basis inc ≠ [] →
         clipP1 rtx.translation refeb.e refeb.clip_edges refeb.basis inc ≠ []) ∧
       (clipP1 rtx.translation refeb.e refeb.clip_edges refeb.basis inc ≠ [] ∧
         clipP2 rtx.translation refeb.e refeb.clip_edges refeb.basis inc ≠ [] →
         clipP2 rtx.translation refeb.e refeb.clip_edges refeb.basis inc ≠ []) ∧
       (clipP1 rtx.translation refeb.e refeb.clip_edges refeb.basis inc ≠ [] ∧
         clipP2 rtx.translation refeb.e refeb.clip_edges refeb.basis inc ≠ [] ∧
         clipP3 rtx.translation refeb.e refeb.clip_edges refeb.basis inc ≠ [] →
         clipP3 rtx.translation refeb.e refeb.clip_edges refeb.basis inc ≠ []))
    else
      (let n := oriFlip (st.atx.rotation.rotate n1)
        (st.btx.translation - st.atx.translation)
       let ae := support_edge st.atx st.ea n
       let be := support_edge st.btx st.eb (-n)
       edgesDomainOk ae.1 ae.2 be.1 be.2)

/-- the half-space membership tests relevant to the clipping passes: each pass
discriminates vertices by the sign (strict or not) of `s * v[ax] - e`. -/
def hsPred (s e : ℚ) (ax : ℕ) (strict : Bool) (v : Vec3) : Bool :=
  if strict then decide (s * v.get ax < e) else decide (s * v.get ax ≤ e)

/-- the cyclic walk of a vertex loop: the last element prepended, so that every
cyclic adjacency appears as a linear adjacency. -/
def walkOf {α : Type} (l : List α) : List α :=
  match l.getLast? with
  | Option.none => []
  | Option.some z => z :: l

/-- count of adjacent pairs satisfying a Boolean pair predicate. -/
def adjCount (p : Bool → Bool → Bool) : List Bool → ℕ
  | x :: y :: r => (if p x y = true then 1 else 0) + adjCount p (y :: r)
  | _ => 0

/-- a false-to-true adjacency (an entering crossing). -/
def pFT (x y : Bool) : Bool := !x && y

/-- a true-to-false adjacency (a leaving crossing). -/
def pTF (x y : Bool) : Bool := x && !y

/-- the convexity invariant carried through the clipping passes: along the
cyclic walk, every half-space test changes value at most twice (once in, once
out).  It holds for the planar quadrilateral entering `clip` and is preserved
by every Sutherland–Hodgman pass. -/
def pINV (l : List Vec3) : Prop :=
  ∀ s e ax strict, adjCount pFT ((walkOf l).map (hsPred s e ax strict)) ≤ 1 ∧
    adjCount pTF ((walkOf l).map (hsPred s e ax strict)) ≤ 1

/-- the canonical point inserted on a polygon edge by a clipping pass: the
plane intersection when the endpoints straddle the plane, the endpoint itself
otherwise. -/
def refineSeg (sign e : ℚ) (ax : ℕ) (a b : Vec3) : Vec3 :=
  if decide (sign * a.get ax - e < 0) = decide (sign * b.get ax - e < 0) then b
  else a + (b - a) *
    ((sign * a.get ax - e) / (sign * a.get ax - e - (sign * b.get ax - e)))

/-- the refinement of a vertex chain by the canonical inserted points. -/
def refineLoop (sign e : ℚ) (ax : ℕ) : Vec3 → List Vec3 → List Vec3
  | _, [] => []
  | a, b :: r => refineSeg sign e ax a b :: b :: refineLoop sign e ax b r

/-! ### Concrete instances used in the evaluations -/

/-- body A of the coincident-unit-box instance: an axis-aligned unit box at the
origin. -/
def obbUA : Obb := ⟨0, Transform.idt, Transform.idt, ⟨1/2, 1/2, 1/2⟩⟩

/-- body B of the coincident-unit-box instance. -/
def obbUB : Obb := ⟨1, Transform.idt, Transform.idt, ⟨1/2, 1/2, 1/2⟩⟩

/-- `setup obbUA obbUB`, spelled out. -/
def stUnit : Setup :=
  { atx := Transform.idt, btx := Transform.idt, ea := ⟨1/2, 1/2, 1/2⟩,
    eb := ⟨1/2, 1/2, 1/2⟩, c := ⟨⟨1, 0, 0⟩, ⟨0, 1, 0⟩, ⟨0, 0, 1⟩⟩,
    absc := ⟨⟨1, 0, 0⟩, ⟨0, 1, 0⟩, ⟨0, 0, 1⟩⟩, parallel := true, t := ⟨0, 0, 0⟩ }

/-- the search state after the face phase on the coincident unit boxes. -/
def rUnit : SearchSt :=
  { amax := -1, aaxis := 0, na := ⟨1, 0, 0⟩, bmax := -1, baxis := 3,
    nb := ⟨1, 0, 0⟩, emax := f32Min, eaxis := u32Max, ne := Vec3.zero }

/-- the incident face computed for the coincident unit boxes (axis 3). -/
def incUnit : List ClipVertex :=
  [⟨⟨1/2, 1/2, -1/2⟩, ⟨255, 255, 9, 1⟩⟩, ⟨⟨1/2, 1/2, 1/2⟩, ⟨255, 255, 1, 8⟩⟩,
   ⟨⟨1/2, -1/2, 1/2⟩, ⟨255, 255, 8, 7⟩⟩, ⟨⟨1/2, -1/2, -1/2⟩, ⟨255, 255, 7, 9⟩⟩]

/-- the reference basis for axis 3 on the coincident unit boxes (columns). -/
def basisU : Mat3 := ⟨⟨0, 0, -1⟩, ⟨0, 1, 0⟩, ⟨1, 0, 0⟩⟩

/-- the incident vertices expressed in the reference basis; all four clipping
passes leave this list unchanged. -/
def vinUnit : List ClipVertex :=
  [⟨⟨1/2, 1/2, 1/2⟩, ⟨255, 255, 9, 1⟩⟩, ⟨⟨-1/2, 1/2, 1/2⟩, ⟨255, 255, 1, 8⟩⟩,
   ⟨⟨-1/2, -1/2, 1/2⟩, ⟨255, 255, 8, 7⟩⟩, ⟨⟨1/2, -1/2, 1/2⟩, ⟨255, 255, 7, 9⟩⟩]

/-- the manifold returned for the coincident unit boxes. -/
def mUnit : Manifold :=
  { body1 := 0, body2 := 1, normal := ⟨1, 0, 0⟩, penetration := -1,
    contacts := [⟨⟨1/2, 1/2, -1/2⟩, 0⟩, ⟨⟨1/2, 1/2, 1/2⟩, 0⟩,
      ⟨⟨1/2, -1/2, 1/2⟩, 0⟩, ⟨⟨1/2, -1/2, -1/2⟩, 0⟩] }

/-- the rotation of the edge-contact instances: the product of a rotation about
`z` and one about `x`, a unit quaternion. -/
def qE : Quat := ⟨12/25, 16/25, 12/25, 9/25⟩

/-- body A of the edge-contact instances: a cube of extent 1 at the origin. -/
def obbEA : Obb := ⟨0, Transform.idt, Transform.idt, ⟨1, 1, 1⟩⟩

/-- body B of the edge-contact witness: the same cube rotated by `qE`. -/
def obbEB : Obb := ⟨1, ⟨⟨0, 0, 0⟩, qE⟩, Transform.idt, ⟨1, 1, 1⟩⟩

/-- body B of the degenerate-edge instance: a zero-thickness segment box. -/
def obbZB : Obb := ⟨1, ⟨⟨0, 0, 0⟩, qE⟩, Transform.idt, ⟨0, 0, 1⟩⟩

/-- the relative rotation matrix of the edge instances. -/
def cE : Mat3 :=
  ⟨⟨-7/25, 24/25, 0⟩, ⟨168/625, 49/625, 24/25⟩, ⟨576/625, 168/625, -7/25⟩⟩

/-- its componentwise absolute value. -/
def abscE : Mat3 :=
  ⟨⟨7/25, 24/25, 0⟩, ⟨168/625, 49/625, 24/25⟩, ⟨576/625, 168/625, 7/25⟩⟩

/-- `setup obbEA obbEB`, spelled out. -/
def stE : Setup :=
  { atx := Transform.idt, btx := ⟨⟨0, 0, 0⟩, qE⟩, ea := ⟨1, 1, 1⟩,
    eb := ⟨1, 1, 1⟩, c := cE, absc := abscE, parallel := false, t := ⟨0, 0, 0⟩ }

/-- `setup obbEA obbZB`, spelled out. -/
def stZ : Setup :=
  { atx := Transform.idt, btx := ⟨⟨0, 0, 0⟩, qE⟩, ea := ⟨1, 1, 1⟩,
    eb := ⟨0, 0, 1⟩, c := cE, absc := abscE, parallel := false, t := ⟨0, 0, 0⟩ }

/-- the search state after the face phase on the edge-contact witness. -/
def rEf : SearchSt :=
  { amax := -56/25, aaxis := 0, na := ⟨1, 0, 0⟩, bmax := -56/25, baxis := 5,
    nb := ⟨0, 24/25, -7/25⟩, emax := f32Min, eaxis := u32Max, ne := Vec3.zero }

/-- the search state after the edge phase on the edge-contact witness. -/
def rE : SearchSt :=
  { amax := -56/25, aaxis := 0, na := ⟨1, 0, 0⟩, bmax := -56/25, baxis := 5,
    nb := ⟨0, 24/25, -7/25⟩, emax := -56/25, eaxis := 6, ne := ⟨0, -24/25, 7/25⟩ }

/-- the search state after the face phase on the degenerate-edge instance. -/
def rZf : SearchSt :=
  { amax := -1, aaxis := 0, na := ⟨1, 0, 0⟩, bmax := -817/625, baxis := 4,
    nb := ⟨24/25, 49/625, 168/625⟩, emax := f32Min, eaxis := u32Max, ne := Vec3.zero }

/-- the search state after the edge phase on the degenerate-edge instance. -/
def rZ : SearchSt :=
  { amax := -1, aaxis := 0, na := ⟨1, 0, 0⟩, bmax := -817/625, baxis := 4,
    nb := ⟨24/25, 49/625, 168/625⟩, emax := -1, eaxis := 11, ne := ⟨-1, 0, 0⟩ }

/-- the manifold returned for the edge-contact witness. -/
def mE : Manifold :=
  { body1 := 0, body2 := 1, normal := ⟨0, -24/25, 7/25⟩, penetration := -56/25,
    contacts := [⟨⟨343193/362401, 57599/362401, 328101/362401⟩, -56/25⟩] }

/-- intermediate edge-phase state of the degenerate instance after axis 6. -/
def rZ6 : SearchSt :=
  { amax := -1, aaxis := 0, na := ⟨1, 0, 0⟩, bmax := -817/625, baxis := 4,
    nb := ⟨24/25, 49/625, 168/625⟩, emax := -56/25, eaxis := 6,
    ne := ⟨0, -24/25, 7/25⟩ }

/-- intermediate edge-phase state of the degenerate instance after axis 8. -/
def rZ8 : SearchSt :=
  { amax := -1, aaxis := 0, na := ⟨1, 0, 0⟩, bmax := -817/625, baxis := 4,
    nb := ⟨24/25, 49/625, 168/625⟩, emax := -31/25, eaxis := 8,
    ne := ⟨0, 7/25, 24/25⟩ }

/-- body B of the separated instance: a unit box shifted by 3 along `x`. -/
def obbSB : Obb := ⟨1, ⟨⟨3, 0, 0⟩, Quat.id⟩, Transform.idt, ⟨1/2, 1/2, 1/2⟩⟩

/-! ### Componentwise evaluation lemmas -/

@[simp] theorem Vec3.add_mk (a b c d e f : ℚ) :
    (Vec3.mk a b c) + (Vec3.mk d e f) = Vec3.mk (a + d) (b + e) (c + f) := rfl

@[simp] theorem Vec3.sub_mk (a b c d e f : ℚ) :
    (Vec3.mk a b c) - (Vec3.mk d e f) = Vec3.mk (a - d) (b - e) (c - f) := rfl

@[simp] theorem Vec3.neg_mk (a b c : ℚ) :
    -(Vec3.mk a b c) = Vec3.mk (-a) (-b) (-c) := rfl

@[simp] theorem Vec3.smul_mk (a b c k : ℚ) :
    (Vec3.mk a b c) * k = Vec3.mk (a * k) (b * k) (c * k) := rfl

@[simp] theorem Vec3.cmul_mk (a b c d e f : ℚ) :
    (Vec3.mk a b c).cmul (Vec3.mk d e f) = Vec3.mk (a * d) (b * e) (c * f) := rfl

@[simp] theorem Vec3.dot_mk (a b c d e f : ℚ) :
    (Vec3.mk a b c).dot (Vec3.mk d e f) = a * d + b * e + c * f := rfl

@[simp] theorem Vec3.cross_mk (a b c d e f : ℚ) :
    (Vec3.mk a b c).cross (Vec3.mk d e f) =
      Vec3.mk (b * f - c * e) (c * d - a * f) (a * e - b * d) := rfl

@[simp] theorem Vec3.vabs_mk (a b c : ℚ) :
    (Vec3.mk a b c).vabs = Vec3.mk |a| |b| |c| := rfl

@[simp] theorem Vec3.vsign_mk (a b c : ℚ) :
    (Vec3.mk a b c).vsign =
      Vec3.mk (if 0 ≤ a then 1 else -1) (if 0 ≤ b then 1 else -1)
        (if 0 ≤ c then 1 else -1) := rfl

@[simp] theorem Vec3.get_zero (v : Vec3) : v.get 0 = v.x := rfl

@[simp] theorem Vec3.get_one (v : Vec3) : v.get 1 = v.y := rfl

@[simp] theorem Vec3.get_two (v : Vec3) : v.get 2 = v.z := rfl

@[simp] theorem Mat3.col_zero (a b c : Vec3) : (Mat3.mk a b c).col 0 = a := rfl

@[simp] theorem Mat3.col_one (a b c : Vec3) : (Mat3.mk a b c).col 1 = b := rfl

@[simp] theorem Mat3.col_two (a b c : Vec3) : (Mat3.mk a b c).col 2 = c := rfl

@[simp] theorem Mat3.transpose_mk (a b c : Vec3) :
    (Mat3.mk a b c).transpose =
      Mat3.mk (Vec3.mk a.x b.x c.x) (Vec3.mk a.y b.y c.y) (Vec3.mk a.z b.z c.z) := rfl

@[simp] theorem Mat3.mulVec_mk (a b c : Vec3) (v : Vec3) :
    (Mat3.mk a b c).mulVec v = a * v.x + b * v.y + c * v.z := rfl

/-! ### Basic algebraic lemmas -/

theorem Vec3.neg_dot (v d : Vec3) : (-v).dot d = -(v.dot d) := by
  cases v; cases d; simp [Vec3.dot]; ring

theorem Vec3.neg_neg' (v : Vec3) : -(-v) = v := by
  cases v; simp

/-- the normal produced by the orientation flip satisfies the orientation
invariant, whatever the input normal. -/
theorem oriFlip_dot_nonneg (n d : Vec3) : 0 ≤ (oriFlip n d).dot d := by
  unfold oriFlip
  by_cases h : n.dot d < 0
  · simp only [h, if_true, Vec3.neg_dot]
    linarith
  · simp only [h, if_false]
    linarith [not_lt.mp h]

/-! ### Branch analysis of `box_to_box` -/

/-- the face branch always emits exactly the flipped normal it was given. -/
theorem faceCase_normal (a b : Obb) (st : Setup) (axis : ℕ) (smax : ℚ) (n0 : Vec3)
    (m : Manifold) (h : faceCase a b st axis smax n0 = Option.some m) :
    m.normal = n0 := by
  unfold faceCase at h
  by_cases hax : axis < 3
  · simp only [hax, if_true] at h
    split at h
    · simp only [Option.some.injEq] at h
      cases h
      simp [hax]
    · exact absurd h (by simp)
  · simp only [hax, if_false] at h
    split at h
    · simp only [Option.some.injEq] at h
      cases h
      simp [hax, Vec3.neg_neg']
    · exact absurd h (by simp)

/-- the face branch emits one contact per surviving clipped vertex, with the
vertex position and depth, and the manifold penetration is the axis margin. -/
theorem faceCase_contacts (a b : Obb) (st : Setup) (axis : ℕ) (smax : ℚ) (n0 : Vec3)
    (m : Manifold) (h : faceCase a b st axis smax n0 = Option.some m) :
    m.penetration = smax ∧ m.contacts.length ≠ 0 ∧
      ∃ rtx er ei itx,
        m.contacts = (clip rtx.translation
            (compute_reference_edges_and_basis er rtx
              (if axis < 3 then n0 else -n0) axis).e
            (compute_reference_edges_and_basis er rtx
              (if axis < 3 then n0 else -n0) axis).clip_edges
            (compute_reference_edges_and_basis er rtx
              (if axis < 3 then n0 else -n0) axis).basis
            (compute_incident_face itx ei (if axis < 3 then n0 else -n0))).map
          (fun vd => ⟨vd.1.v, vd.2⟩) := by
  unfold faceCase at h
  by_cases hax : axis < 3
  · simp only [hax, if_true] at h
    split at h
    · rename_i hlen
      simp only [Option.some.injEq] at h
      cases h
      refine ⟨rfl, ?_, st.atx, st.ea, st.eb, st.btx, by simp [hax]⟩
      simpa using Nat.pos_iff_ne_zero.mp hlen
    · exact absurd h (by simp)
  · simp only [hax, if_false] at h
    split at h
    · rename_i hlen
      simp only [Option.some.injEq] at h
      cases h
      refine ⟨rfl, ?_, st.btx, st.eb, st.ea, st.atx, by simp [hax]⟩
      simpa using Nat.pos_iff_ne_zero.mp hlen
    · exact absurd h (by simp)

/-- the edge branch emits its own re-flipped world normal. -/
theorem edgeCase_normal (a b : Obb) (st : Setup) (smax : ℚ) (n0 : Vec3)
    (m : Manifold) (h : edgeCase a b st smax n0 = Option.some m) :
    m.normal = oriFlip (st.atx.rotation.rotate n0)
      (st.btx.translation - st.atx.translation) := by
  unfold edgeCase at h
  simp only [Option.some.injEq] at h
  cases h
  rfl

/-- the edge branch emits exactly one contact, at the midpoint of the two
closest points of the support edges, with penetration the axis margin. -/
theorem edgeCase_contacts (a b : Obb) (st : Setup) (smax : ℚ) (n0 : Vec3)
    (m : Manifold) (h : edgeCase a b st smax n0 = Option.some m) :
    m.penetration = smax ∧
      (let n := oriFlip (st.atx.rotation.rotate n0)
        (st.btx.translation - st.atx.translation)
       let ae := support_edge st.atx st.ea n
       let be := support_edge st.btx st.eb (-n)
       let cab := edges_contact ae.1 ae.2 be.1 be.2
       m.contacts = [⟨(cab.1 + cab.2) * ((1 : ℚ) / 2), smax⟩]) := by
  unfold edgeCase at h
  simp only [Option.some.injEq] at h
  cases h
  exact ⟨rfl, rfl⟩

/-- `box_to_box` with the head `let`s and `match` spelled out. -/
theorem box_to_box_eq (sq : ℚ → ℚ) (a b : Obb) :
    box_to_box sq a b =
      match searchPhase sq (setup a b) with
      | Option.none => Option.none
      | Option.some r =>
        if (select r).axis = u32Max then Option.none
        else if (select r).axis < 6 then
          faceCase a b (setup a b) (select r).axis (select r).smax
            (oriFlip (select r).n
              ((setup a b).btx.translation - (setup a b).atx.translation))
        else
          edgeCase a b (setup a b) (select r).smax
            (oriFlip (select r).n
              ((setup a b).btx.translation - (setup a b).atx.translation)) := rfl

/-- case analysis of `box_to_box` returning a manifold: either the face branch
or the edge branch produced it, from the selected axis and the orientation
flipped normal. -/
theorem box_to_box_cases (sq : ℚ → ℚ) (a b : Obb) (m : Manifold)
    (h : box_to_box sq a b = Option.some m) :
    ∃ r, searchPhase sq (setup a b) = Option.some r ∧
      (select r).axis ≠ u32Max ∧
      (let st := setup a b
       let sel := select r
       let n1 := oriFlip sel.n (st.btx.translation - st.atx.translation)
       (sel.axis < 6 ∧ faceCase a b st sel.axis sel.smax n1 = Option.some m) ∨
       (6 ≤ sel.axis ∧ edgeCase a b st sel.smax n1 = Option.some m)) := by
  rw [box_to_box_eq] at h
  cases hsp : searchPhase sq (setup a b) with
  | none => rw [hsp] at h; exact absurd h (by simp)
  | some r =>
    rw [hsp] at h
    simp only at h
    refine ⟨r, rfl, ?_, ?_⟩
    · intro hmax
      rw [if_pos hmax] at h
      exact absurd h (by simp)
    · by_cases hmax : (select r).axis = u32Max
      · rw [if_pos hmax] at h
        exact absurd h (by simp)
      · rw [if_neg hmax] at h
        by_cases hlt : (select r).axis < 6
        · rw [if_pos hlt] at h
          exact Or.inl ⟨hlt, h⟩
        · rw [if_neg hlt] at h
          exact Or.inr ⟨Nat.le_of_not_lt hlt, h⟩

/-! ### Tracking the search state through the axis evaluations -/

theorem stepA_cases (st : Setup) (i : ℕ) (r r' : SearchSt)
    (h : stepA st i r = Option.some r') :
    r' = r ∨ r' = { r with amax := faceS st i, aaxis := i, na := faceN st i } := by
  unfold stepA track_face_axis at h
  split_ifs at h with h1 h2
  · simp only [Option.some.injEq] at h
    exact Or.inr h.symm
  · simp only [Option.some.injEq] at h
    exact Or.inl h.symm

theorem stepB_cases (st : Setup) (i : ℕ) (r r' : SearchSt)
    (h : stepB st i r = Option.some r') :
    r' = r ∨ r' = { r with bmax := faceS st i, baxis := i, nb := faceN st i } := by
  unfold stepB track_face_axis at h
  split_ifs at h with h1 h2
  · simp only [Option.some.injEq] at h
    exact Or.inr h.symm
  · simp only [Option.some.injEq] at h
    exact Or.inl h.symm

theorem stepE_cases (sq : ℚ → ℚ) (st : Setup) (i : ℕ) (r r' : SearchSt)
    (h : stepE sq st i r = Option.some r') :
    r' = r ∨ r' = { r with
      emax := edgeS st i * lengthReciprocal sq (edgeN st i), eaxis := i,
      ne := edgeN st i * lengthReciprocal sq (edgeN st i) } := by
  unfold stepE track_edge_axis at h
  split_ifs at h with h1 h2
  · simp only [Option.some.injEq] at h
    exact Or.inr h.symm
  · simp only [Option.some.injEq] at h
    exact Or.inl h.symm

/-- step abort conditions do not depend on the accumulated state. -/
theorem stepA_none (st : Setup) (i : ℕ) (r : SearchSt) (hs : 0 < faceS st i) :
    stepA st i r = Option.none := by
  unfold stepA track_face_axis
  rw [if_pos hs]

theorem stepB_none (st : Setup) (i : ℕ) (r : SearchSt) (hs : 0 < faceS st i) :
    stepB st i r = Option.none := by
  unfold stepB track_face_axis
  rw [if_pos hs]

theorem stepE_none (sq : ℚ → ℚ) (st : Setup) (i : ℕ) (r : SearchSt)
    (hs : 0 < edgeS st i) : stepE sq st i r = Option.none := by
  unfold stepE track_edge_axis
  rw [if_pos hs]

/-- invariants established by the face phase: the edge record still holds its
sentinel values and the face records hold a legal axis index or the sentinel. -/
theorem facePhase_fields (st : Setup) (r : SearchSt)
    (h : facePhase st = Option.some r) :
    r.eaxis = u32Max ∧ r.emax = f32Min ∧ r.ne = Vec3.zero ∧
      (r.aaxis = u32Max ∨ r.aaxis < 3) ∧
      (r.baxis = u32Max ∨ (3 ≤ r.baxis ∧ r.baxis < 6)) := by
  unfold facePhase at h
  obtain ⟨r5, h5, hs5⟩ := Option.bind_eq_some.mp h
  obtain ⟨r4, h4, hs4⟩ := Option.bind_eq_some.mp h5
  obtain ⟨r3, h3, hs3⟩ := Option.bind_eq_some.mp h4
  obtain ⟨r2, h2, hs2⟩ := Option.bind_eq_some.mp h3
  obtain ⟨r1, h1, hs1⟩ := Option.bind_eq_some.mp h2
  have c1 := stepA_cases st 0 SearchSt.init r1 h1
  have c2 := stepA_cases st 1 r1 r2 hs1
  have c3 := stepA_cases st 2 r2 r3 hs2
  have c4 := stepB_cases st 3 r3 r4 hs3
  have c5 := stepB_cases st 4 r4 r5 hs4
  have c6 := stepB_cases st 5 r5 r hs5
  rcases c1 with rfl | rfl <;> rcases c2 with rfl | rfl <;> rcases c3 with rfl | rfl <;>
    rcases c4 with rfl | rfl <;> rcases c5 with rfl | rfl <;> rcases c6 with rfl | rfl <;>
    simp [SearchSt.init]

/-- one edge step preserves the face records and either keeps or stamps the
edge axis index. -/
theorem stepE_preserves (sq : ℚ → ℚ) (st : Setup) (i : ℕ) (r r' : SearchSt)
    (h : stepE sq st i r = Option.some r') :
    (r'.amax = r.amax ∧ r'.aaxis = r.aaxis ∧ r'.na = r.na ∧
     r'.bmax = r.bmax ∧ r'.baxis = r.baxis ∧ r'.nb = r.nb) ∧
      (r'.eaxis = r.eaxis ∨ r'.eaxis = i) := by
  rcases stepE_cases sq st i r r' h with rfl | rfl
  · exact ⟨⟨rfl, rfl, rfl, rfl, rfl, rfl⟩, Or.inl rfl⟩
  · exact ⟨⟨rfl, rfl, rfl, rfl, rfl, rfl⟩, Or.inr rfl⟩

/-- invariants established by the edge phase: the face records are untouched and
the edge record holds a legal axis index or its input value. -/
theorem edgePhase_fields (sq : ℚ → ℚ) (st : Setup) (r0 r : SearchSt)
    (h : edgePhase sq st r0 = Option.some r) :
    r.amax = r0.amax ∧ r.aaxis = r0.aaxis ∧ r.na = r0.na ∧
      r.bmax = r0.bmax ∧ r.baxis = r0.baxis ∧ r.nb = r0.nb ∧
      (r.eaxis = r0.eaxis ∨ (6 ≤ r.eaxis ∧ r.eaxis < 15)) := by
  unfold edgePhase at h
  obtain ⟨r8, h8, hs8⟩ := Option.bind_eq_some.mp h
  obtain ⟨r7, h7, hs7⟩ := Option.bind_eq_some.mp h8
  obtain ⟨r6, h6, hs6⟩ := Option.bind_eq_some.mp h7
  obtain ⟨r5, h5, hs5⟩ := Option.bind_eq_some.mp h6
  obtain ⟨r4, h4, hs4⟩ := Option.bind_eq_some.mp h5
  obtain ⟨r3, h3, hs3⟩ := Option.bind_eq_some.mp h4
  obtain ⟨r2, h2, hs2⟩ := Option.bind_eq_some.mp h3
  obtain ⟨r1, h1, hs1⟩ := Option.bind_eq_some.mp h2
  obtain ⟨p1, e1⟩ := stepE_preserves sq st 6 r0 r1 h1
  obtain ⟨p2, e2⟩ := stepE_preserves sq st 7 r1 r2 hs1
  obtain ⟨p3, e3⟩ := stepE_preserves sq st 8 r2 r3 hs2
  obtain ⟨p4, e4⟩ := stepE_preserves sq st 9 r3 r4 hs3
  obtain ⟨p5, e5⟩ := stepE_preserves sq st 10 r4 r5 hs4
  obtain ⟨p6, e6⟩ := stepE_preserves sq st 11 r5 r6 hs5
  obtain ⟨p7, e7⟩ := stepE_preserves sq st 12 r6 r7 hs6
  obtain ⟨p8, e8⟩ := stepE_preserves sq st 13 r7 r8 hs7
  obtain ⟨p9, e9⟩ := stepE_preserves sq st 14 r8 r hs8
  refine ⟨?_, ?_, ?_, ?_, ?_, ?_, ?_⟩
  · rw [p9.1, p8.1, p7.1, p6.1, p5.1, p4.1, p3.1, p2.1, p1.1]
  · rw [p9.2.1, p8.2.1, p7.2.1, p6.2.1, p5.2.1, p4.2.1, p3.2.1, p2.2.1, p1.2.1]
  · rw [p9.2.2.1, p8.2.2.1, p7.2.2.1, p6.2.2.1, p5.2.2.1, p4.2.2.1, p3.2.2.1,
      p2.2.2.1, p1.2.2.1]
  · rw [p9.2.2.2.1, p8.2.2.2.1, p7.2.2.2.1, p6.2.2.2.1, p5.2.2.2.1, p4.2.2.2.1,
      p3.2.2.2.1, p2.2.2.2.1, p1.2.2.2.1]
  · rw [p9.2.2.2.2.1, p8.2.2.2.2.1, p7.2.2.2.2.1, p6.2.2.2.2.1, p5.2.2.2.2.1,
      p4.2.2.2.2.1, p3.2.2.2.2.1, p2.2.2.2.2.1, p1.2.2.2.2.1]
  · rw [p9.2.2.2.2.2, p8.2.2.2.2.2, p7.2.2.2.2.2, p6.2.2.2.2.2, p5.2.2.2.2.2,
      p4.2.2.2.2.2, p3.2.2.2.2.2, p2.2.2.2.2.2, p1.2.2.2.2.2]
  · rcases e9 with h9 | h9
    on_goal 2 => exact Or.inr (by omega)
    rw [h9]
    rcases e8 with h8e | h8e
    on_goal 2 => exact Or.inr (by omega)
    rw [h8e]
    rcases e7 with h7e | h7e
    on_goal 2 => exact Or.inr (by omega)
    rw [h7e]
    rcases e6 with h6e | h6e
    on_goal 2 => exact Or.inr (by omega)
    rw [h6e]
    rcases e5 with h5e | h5e
    on_goal 2 => exact Or.inr (by omega)
    rw [h5e]
    rcases e4 with h4e | h4e
    on_goal 2 => exact Or.inr (by omega)
    rw [h4e]
    rcases e3 with h3e | h3e
    on_goal 2 => exact Or.inr (by omega)
    rw [h3e]
    rcases e2 with h2e | h2e
    on_goal 2 => exact Or.inr (by omega)
    rw [h2e]
    rcases e1 with h1e | h1e
    on_goal 2 => exact Or.inr (by omega)
    rw [h1e]
    exact Or.inl rfl

theorem bind_none_fun (x : Option SearchSt) (f : SearchSt → Option SearchSt)
    (hf : ∀ r, f r = Option.none) : x.bind f = Option.none := by
  cases x <;> simp [hf]

/-- a strictly positive separation at any face axis aborts the whole search. -/
theorem facePhase_none (st : Setup) (i : ℕ) (hi : i < 6) (hs : 0 < faceS st i) :
    facePhase st = Option.none := by
  unfold facePhase
  interval_cases i
  · rw [stepA_none st 0 SearchSt.init hs]
    rfl
  · rw [bind_none_fun (stepA st 0 SearchSt.init) _ (fun r => stepA_none st 1 r hs)]
    rfl
  · rw [bind_none_fun _ _ (fun r => stepA_none st 2 r hs)]
    rfl
  · rw [bind_none_fun _ _ (fun r => stepB_none st 3 r hs)]
    rfl
  · rw [bind_none_fun _ _ (fun r => stepB_none st 4 r hs)]
    rfl
  · exact bind_none_fun _ _ (fun r => stepB_none st 5 r hs)

/-- a strictly positive scaled separation at any evaluated edge axis aborts the
whole search. -/
theorem edgePhase_none (sq : ℚ → ℚ) (st : Setup) (r0 : SearchSt) (i : ℕ)
    (hi6 : 6 ≤ i) (hi : i < 15) (hs : 0 < edgeS st i) :
    edgePhase sq st r0 = Option.none := by
  unfold edgePhase
  interval_cases i
  · rw [stepE_none sq st 6 r0 hs]
    rfl
  · rw [bind_none_fun (stepE sq st 6 r0) _ (fun r => stepE_none sq st 7 r hs)]
    rfl
  · rw [bind_none_fun _ _ (fun r => stepE_none sq st 8 r hs)]
    rfl
  · rw [bind_none_fun _ _ (fun r => stepE_none sq st 9 r hs)]
    rfl
  · rw [bind_none_fun _ _ (fun r => stepE_none sq st 10 r hs)]
    rfl
  · rw [bind_none_fun _ _ (fun r => stepE_none sq st 11 r hs)]
    rfl
  · rw [bind_none_fun _ _ (fun r => stepE_none sq st 12 r hs)]
    rfl
  · rw [bind_none_fun _ _ (fun r => stepE_none sq st 13 r hs)]
    rfl
  · exact bind_none_fun _ _ (fun r => stepE_none sq st 14 r hs)

/-- with the near-parallel flag set, the search is exactly the face phase. -/
theorem searchPhase_parallel (sq : ℚ → ℚ) (st : Setup) (hpar : st.parallel = true) :
    searchPhase sq st = facePhase st := by
  unfold searchPhase
  cases facePhase st <;> simp [hpar]


/-- combined invariants of the full search phase. -/
theorem searchPhase_fields (sq : ℚ → ℚ) (st : Setup) (r : SearchSt)
    (h : searchPhase sq st = Option.some r) :
    (r.aaxis = u32Max ∨ r.aaxis < 3) ∧
      (r.baxis = u32Max ∨ (3 ≤ r.baxis ∧ r.baxis < 6)) ∧
      ((st.parallel = true ∧ r.eaxis = u32Max ∧ r.emax = f32Min) ∨
        (st.parallel = false ∧ (r.eaxis = u32Max ∨ (6 ≤ r.eaxis ∧ r.eaxis < 15)))) := by
  unfold searchPhase at h
  obtain ⟨r0, hf, hcond⟩ := Option.bind_eq_some.mp h
  obtain ⟨he, hm, hn, ha, hb⟩ := facePhase_fields st r0 hf
  cases hpar : st.parallel with
  | true =>
    rw [hpar, if_pos rfl] at hcond
    cases hcond
    exact ⟨ha, hb, Or.inl ⟨rfl, he, hm⟩⟩
  | false =>
    rw [hpar] at hcond
    simp only [Bool.false_eq_true, if_false] at hcond
    obtain ⟨pa, pax, pna, pb, pbx, pnb, pe⟩ := edgePhase_fields sq st r0 r hcond
    refine ⟨?_, ?_, Or.inr ⟨rfl, ?_⟩⟩
    · rw [pax]; exact ha
    · rw [pbx]; exact hb
    · rcases pe with hpe | hpe
      · rw [hpe]; exact Or.inl he
      · exact Or.inr hpe

/-- the selection returns one of the three best-axis records. -/
theorem select_cases (r : SearchSt) :
    select r = ⟨r.eaxis, r.emax, r.ne⟩ ∨ select r = ⟨r.baxis, r.bmax, r.nb⟩ ∨
      select r = ⟨r.aaxis, r.amax, r.na⟩ := by
  unfold select
  split_ifs
  · exact Or.inl rfl
  · exact Or.inr (Or.inl rfl)
  · exact Or.inr (Or.inr rfl)


/-! ### Rotation algebra for unit quaternions -/

theorem Quat.normSq_qmul (p q : Quat) : (p.qmul q).normSq = p.normSq * q.normSq := by
  obtain ⟨px, py, pz, pw⟩ := p
  obtain ⟨qx, qy, qz, qw⟩ := q
  simp only [Quat.qmul, Quat.normSq]
  ring

theorem Quat.normSq_conj (q : Quat) : q.conj.normSq = q.normSq := by
  obtain ⟨qx, qy, qz, qw⟩ := q
  simp only [Quat.conj, Quat.normSq]
  ring

/-- unit quaternion: the rotation matrix columns are unit vectors. -/
theorem fromQuat_col_normSq (q : Quat) (hq : q.normSq = 1) (k : ℕ) (hk : k < 3) :
    ((Mat3.fromQuat q).col k).dot ((Mat3.fromQuat q).col k) = 1 := by
  obtain ⟨qx, qy, qz, qw⟩ := q
  simp only [Quat.normSq] at hq
  interval_cases k
  · simp only [Mat3.fromQuat, Mat3.col_zero, Vec3.dot_mk]
    linear_combination (4 * qz * qz + 4 * qy * qy) * hq
  · simp only [Mat3.fromQuat, Mat3.col_one, Vec3.dot_mk]
    linear_combination (4 * qz * qz + 4 * qx * qx) * hq
  · simp only [Mat3.fromQuat, Mat3.col_two, Vec3.dot_mk]
    linear_combination (4 * qy * qy + 4 * qx * qx) * hq

/-- unit quaternions: the pairwise dot products of rotation-matrix columns of
two frames are exactly the entries of the relative rotation matrix
`C = Mat3.fromQuat (conj qa * qb)` in the indexing the source uses
(`ca[j][k]` = column `j`, component `k`). -/
theorem fromQuat_cols_dot (qa qb : Quat) (ha : qa.normSq = 1) (hb : qb.normSq = 1)
    (k j : ℕ) (hk : k < 3) (hj : j < 3) :
    ((Mat3.fromQuat qa).col k).dot ((Mat3.fromQuat qb).col j) =
      (Mat3.fromQuat (qa.conj.qmul qb)).entry j k := by
  obtain ⟨ax, ay, az, aw⟩ := qa
  obtain ⟨bx, by', bz, bw⟩ := qb
  simp only [Quat.normSq] at ha hb
  interval_cases k <;> interval_cases j <;>
    simp only [Mat3.fromQuat, Quat.conj, Quat.qmul, Mat3.entry, Mat3.col_zero,
      Mat3.col_one, Mat3.col_two, Vec3.dot_mk, Vec3.get_zero, Vec3.get_one,
      Vec3.get_two]
  · linear_combination (2 * bz * bz + 2 * by' * by') * ha + (2 * az * az + 2 * ay * ay) * hb
  · linear_combination (2 * bz * bw - 2 * bx * by') * ha + (-2 * az * aw - 2 * ax * ay) * hb
  · linear_combination (-2 * by' * bw - 2 * bx * bz) * ha + (2 * ay * aw - 2 * ax * az) * hb
  · linear_combination (-2 * bz * bw - 2 * bx * by') * ha + (2 * az * aw - 2 * ax * ay) * hb
  · linear_combination (2 * bz * bz + 2 * bx * bx) * ha + (2 * az * az + 2 * ax * ax) * hb
  · linear_combination (-2 * by' * bz + 2 * bx * bw) * ha + (-2 * ay * az - 2 * ax * aw) * hb
  · linear_combination (2 * by' * bw - 2 * bx * bz) * ha + (-2 * ay * aw - 2 * ax * az) * hb
  · linear_combination (-2 * by' * bz - 2 * bx * bw) * ha + (-2 * ay * az + 2 * ax * aw) * hb
  · linear_combination (2 * by' * by' + 2 * bx * bx) * ha + (2 * ay * ay + 2 * ax * ax) * hb


/-! ### The edge-case division domains -/

theorem Mat3.mulVec_x (m : Mat3) (c : ℚ) :
    m.mulVec (Vec3.mk c 0 0) = m.xAxis * c := by
  obtain ⟨⟨a1, a2, a3⟩, ⟨b1, b2, b3⟩, ⟨c1, c2, c3⟩⟩ := m
  simp

theorem Mat3.mulVec_y (m : Mat3) (c : ℚ) :
    m.mulVec (Vec3.mk 0 c 0) = m.yAxis * c := by
  obtain ⟨⟨a1, a2, a3⟩, ⟨b1, b2, b3⟩, ⟨c1, c2, c3⟩⟩ := m
  simp

theorem Mat3.mulVec_z (m : Mat3) (c : ℚ) :
    m.mulVec (Vec3.mk 0 0 c) = m.zAxis * c := by
  obtain ⟨⟨a1, a2, a3⟩, ⟨b1, b2, b3⟩, ⟨c1, c2, c3⟩⟩ := m
  simp

theorem cmul_sub_z (ex ey ez sx sy sz : ℚ) :
    (Vec3.mk ex ey ez).cmul (Vec3.mk sx sy sz) -
      (Vec3.mk ex ey (-ez)).cmul (Vec3.mk sx sy sz) = Vec3.mk 0 0 (2 * (ez * sz)) := by
  simp only [Vec3.cmul_mk, Vec3.sub_mk, Vec3.mk.injEq]
  refine ⟨by ring, by ring, by ring⟩

theorem cmul_sub_y (ex ey ez sx sy sz : ℚ) :
    (Vec3.mk ex ey ez).cmul (Vec3.mk sx sy sz) -
      (Vec3.mk ex (-ey) ez).cmul (Vec3.mk sx sy sz) = Vec3.mk 0 (2 * (ey * sy)) 0 := by
  simp only [Vec3.cmul_mk, Vec3.sub_mk, Vec3.mk.injEq]
  refine ⟨by ring, by ring, by ring⟩

theorem cmul_sub_x (ex ey ez sx sy sz : ℚ) :
    (Vec3.mk ex ey ez).cmul (Vec3.mk sx sy sz) -
      (Vec3.mk (-ex) ey ez).cmul (Vec3.mk sx sy sz) = Vec3.mk (2 * (ex * sx)) 0 0 := by
  simp only [Vec3.cmul_mk, Vec3.sub_mk, Vec3.mk.injEq]
  refine ⟨by ring, by ring, by ring⟩

/-- the difference of the two support-edge endpoints is a (signed, extent
scaled) rotation-matrix column of the box frame. -/
theorem support_edge_diff (tx : Transform) (e n : Vec3) :
    ∃ k c, k < 3 ∧ (c = 2 * e.get k ∨ c = -(2 * e.get k)) ∧
      (support_edge tx e n).1 - (support_edge tx e n).2 =
        ((Mat3.fromQuat tx.rotation).col k) * c := by
  have base : ∀ va vb : Vec3, ((Mat3.fromQuat tx.rotation).mulVec va + tx.translation) -
      ((Mat3.fromQuat tx.rotation).mulVec vb + tx.translation) =
      (Mat3.fromQuat tx.rotation).mulVec (va - vb) := by
    intro va vb
    obtain ⟨⟨a1, a2, a3⟩, ⟨b1, b2, b3⟩, ⟨c1, c2, c3⟩⟩ := Mat3.fromQuat tx.rotation
    obtain ⟨w1, w2, w3⟩ := va
    obtain ⟨w4, w5, w6⟩ := vb
    obtain ⟨t1, t2, t3⟩ := tx.translation
    simp only [Mat3.mulVec_mk, Vec3.smul_mk, Vec3.add_mk, Vec3.sub_mk, Vec3.mk.injEq]
    refine ⟨by ring, by ring, by ring⟩
  unfold support_edge
  obtain ⟨ex, ey, ez⟩ := e
  rcases hm : tx.rotation.conj.rotate n with ⟨nx, ny, nz⟩
  simp only [hm, Vec3.vabs_mk, Vec3.vsign_mk, Transform.tp3]
  have hsx : (if (0:ℚ) ≤ nx then (1:ℚ) else -1) = 1 ∨
      (if (0:ℚ) ≤ nx then (1:ℚ) else -1) = -1 := by
    by_cases h : (0:ℚ) ≤ nx <;> simp [h]
  have hsy : (if (0:ℚ) ≤ ny then (1:ℚ) else -1) = 1 ∨
      (if (0:ℚ) ≤ ny then (1:ℚ) else -1) = -1 := by
    by_cases h : (0:ℚ) ≤ ny <;> simp [h]
  have hsz : (if (0:ℚ) ≤ nz then (1:ℚ) else -1) = 1 ∨
      (if (0:ℚ) ≤ nz then (1:ℚ) else -1) = -1 := by
    by_cases h : (0:ℚ) ≤ nz <;> simp [h]
  generalize hgx : (if (0:ℚ) ≤ nx then (1:ℚ) else -1) = sx at hsx ⊢
  generalize hgy : (if (0:ℚ) ≤ ny then (1:ℚ) else -1) = sy at hsy ⊢
  generalize hgz : (if (0:ℚ) ≤ nz then (1:ℚ) else -1) = sz at hsz ⊢
  by_cases h1 : |nx| > |ny|
  · by_cases h2 : |ny| > |nz|
    · -- z edge family
      rw [if_pos h1, if_pos h2]
      refine ⟨2, 2 * (ez * sz), by omega, ?_, ?_⟩
      · rcases hsz with rfl | rfl
        · exact Or.inl (by simp [Vec3.get])
        · exact Or.inr (by simp [Vec3.get])
      · simp only []
        rw [base, cmul_sub_z, Mat3.mulVec_z]
        rfl
    · -- y edge family
      rw [if_pos h1, if_neg h2]
      refine ⟨1, 2 * (ey * sy), by omega, ?_, ?_⟩
      · rcases hsy with rfl | rfl
        · exact Or.inl (by simp [Vec3.get])
        · exact Or.inr (by simp [Vec3.get])
      · simp only []
        rw [base, cmul_sub_y, Mat3.mulVec_y]
        rfl
  · by_cases h3 : |nx| > |nz|
    · -- z edge family again
      rw [if_neg h1, if_pos h3]
      refine ⟨2, 2 * (ez * sz), by omega, ?_, ?_⟩
      · rcases hsz with rfl | rfl
        · exact Or.inl (by simp [Vec3.get])
        · exact Or.inr (by simp [Vec3.get])
      · simp only []
        rw [base, cmul_sub_z, Mat3.mulVec_z]
        rfl
    · -- x edge family
      rw [if_neg h1, if_neg h3]
      refine ⟨0, 2 * (ex * sx), by omega, ?_, ?_⟩
      · rcases hsx with rfl | rfl
        · exact Or.inl (by simp [Vec3.get])
        · exact Or.inr (by simp [Vec3.get])
      · simp only []
        rw [base, cmul_sub_x, Mat3.mulVec_x]
        rfl


theorem dot_smul_smul (u v : Vec3) (α β : ℚ) :
    (u * α).dot (v * β) = α * β * (u.dot v) := by
  obtain ⟨u1, u2, u3⟩ := u
  obtain ⟨v1, v2, v3⟩ := v
  simp only [Vec3.smul_mk, Vec3.dot_mk]
  ring

/-- the `edges_contact` denominators are nonzero whenever the two segment
directions are nonzero multiples of unit vectors whose dot product has
magnitude below one. -/
theorem edgesDomainOk_of (pa qa pb qb u v : Vec3) (α β : ℚ)
    (h1 : qa - pa = u * α) (h2 : qb - pb = v * β)
    (hu : u.dot u = 1) (hv : v.dot v = 1) (huv : |u.dot v| < 1)
    (hα : α ≠ 0) (hβ : β ≠ 0) : edgesDomainOk pa qa pb qb := by
  unfold edgesDomainOk
  rw [h1, h2, dot_smul_smul, dot_smul_smul, dot_smul_smul, hu, hv]
  obtain ⟨hlo, hhi⟩ := abs_lt.mp huv
  have hd : (u.dot v) * (u.dot v) < 1 := by nlinarith
  have hα2 : 0 < α * α := mul_self_pos.mpr hα
  have hβ2 : 0 < β * β := mul_self_pos.mpr hβ
  constructor
  · have heq : α * α * 1 * (β * β * 1) - α * β * (u.dot v) * (α * β * (u.dot v)) =
        (α * α) * (β * β) * (1 - (u.dot v) * (u.dot v)) := by ring
    rw [heq]
    exact ne_of_gt (mul_pos (mul_pos hα2 hβ2) (by linarith))
  · have : 0 < β * β * 1 := by linarith
    exact ne_of_gt this

theorem setup_atx (a b : Obb) :
    (setup a b).atx = a.transform.compose a.localOffset := rfl

theorem setup_btx (a b : Obb) :
    (setup a b).btx = b.transform.compose b.localOffset := rfl

theorem setup_ea (a b : Obb) : (setup a b).ea = a.extent := rfl

theorem setup_eb (a b : Obb) : (setup a b).eb = b.extent := rfl

theorem setup_c (a b : Obb) :
    (setup a b).c = Mat3.fromQuat
      ((a.transform.compose a.localOffset).rotation.conj.qmul
        (b.transform.compose b.localOffset).rotation) := rfl

/-- with the near-parallel flag clear, every entry of the relative rotation
matrix has magnitude strictly below one. -/
theorem setup_entries_lt_one (a b : Obb) (h : (setup a b).parallel = false) :
    ∀ i j, i < 3 → j < 3 → |(setup a b).c.entry i j| < 1 := by
  intro i j hi hj
  have h9 : ∀ i' j', (decide ((1:ℚ) ≤ |(setup a b).c.entry i' j'| + parEps) = false) →
      |(setup a b).c.entry i' j'| < 1 := by
    intro i' j' hd
    have := of_decide_eq_false hd
    have hp : (0:ℚ) < parEps := by norm_num [parEps]
    push_neg at this
    linarith
  have hsplit : (setup a b).parallel =
      (decide ((1:ℚ) ≤ |(setup a b).c.entry 0 0| + parEps) ||
       decide ((1:ℚ) ≤ |(setup a b).c.entry 0 1| + parEps) ||
       decide ((1:ℚ) ≤ |(setup a b).c.entry 0 2| + parEps) ||
       decide ((1:ℚ) ≤ |(setup a b).c.entry 1 0| + parEps) ||
       decide ((1:ℚ) ≤ |(setup a b).c.entry 1 1| + parEps) ||
       decide ((1:ℚ) ≤ |(setup a b).c.entry 1 2| + parEps) ||
       decide ((1:ℚ) ≤ |(setup a b).c.entry 2 0| + parEps) ||
       decide ((1:ℚ) ≤ |(setup a b).c.entry 2 1| + parEps) ||
       decide ((1:ℚ) ≤ |(setup a b).c.entry 2 2| + parEps)) := rfl
  rw [hsplit] at h
  simp only [Bool.or_eq_false_iff] at h
  obtain ⟨⟨⟨⟨⟨⟨⟨⟨h00, h01⟩, h02⟩, h10⟩, h11⟩, h12⟩, h20⟩, h21⟩, h22⟩ := h
  interval_cases i <;> interval_cases j
  · exact h9 0 0 h00
  · exact h9 0 1 h01
  · exact h9 0 2 h02
  · exact h9 1 0 h10
  · exact h9 1 1 h11
  · exact h9 1 2 h12
  · exact h9 2 0 h20
  · exact h9 2 1 h21
  · exact h9 2 2 h22


theorem compute_incident_face_length (itx : Transform) (e n : Vec3) :
    (compute_incident_face itx e n).length = 4 := by
  simp only [compute_incident_face]
  split_ifs <;> rfl

theorem Vec3.neg_smul' (u : Vec3) (c : ℚ) : -(u * c) = u * (-c) := by
  obtain ⟨u1, u2, u3⟩ := u
  simp only [Vec3.smul_mk, Vec3.neg_mk, Vec3.mk.injEq]
  refine ⟨by ring, by ring, by ring⟩

theorem Vec3.sub_neg_of (p q : Vec3) (u : Vec3) (c : ℚ) (h : p - q = u * c) :
    q - p = u * (-c) := by
  obtain ⟨p1, p2, p3⟩ := p
  obtain ⟨q1, q2, q3⟩ := q
  obtain ⟨u1, u2, u3⟩ := u
  simp only [Vec3.sub_mk, Vec3.smul_mk, Vec3.mk.injEq] at h ⊢
  obtain ⟨e1, e2, e3⟩ := h
  refine ⟨by linarith, by linarith, by linarith⟩

theorem Vec3.get_pos (e : Vec3) (h : 0 < e.x ∧ 0 < e.y ∧ 0 < e.z) (k : ℕ)
    (hk : k < 3) : 0 < e.get k := by
  interval_cases k
  · exact h.1
  · exact h.2.1
  · exact h.2.2

/-- C9 (amended): the original claim allows extents ≥ 0, but a zero-extent box
can reach the edge branch with both closest-point denominators vanishing (see
the counterexample); with unit rotations and strictly positive extents every
division/unwrap domain condition of `box_to_box` holds. -/
theorem box_to_box_domains_of_pos (sq : ℚ → ℚ) (a b : Obb)
    (ha1 : a.transform.rotation.normSq = 1) (ha2 : a.localOffset.rotation.normSq = 1)
    (hb1 : b.transform.rotation.normSq = 1) (hb2 : b.localOffset.rotation.normSq = 1)
    (hea : 0 < a.extent.x ∧ 0 < a.extent.y ∧ 0 < a.extent.z)
    (heb : 0 < b.extent.x ∧ 0 < b.extent.y ∧ 0 < b.extent.z) :
    box_to_box_domains sq a b := by
  unfold box_to_box_domains
  cases hsp : searchPhase sq (setup a b) with
  | none => trivial
  | some r =>
    simp only []
    by_cases hmax : (select r).axis = u32Max
    · rw [if_pos hmax]
      trivial
    rw [if_neg hmax]
    by_cases hlt : (select r).axis < 6
    · rw [if_pos hlt]
      refine ⟨by unfold adjAxis; split_ifs <;> omega, ?_, fun h => h, fun h => h.2,
        fun h => h.2.2⟩
      · intro hempty
        have hlen := congrArg List.length hempty
        rw [clipVin, List.length_map, compute_incident_face_length] at hlen
        exact absurd hlen (by simp)
    · rw [if_neg hlt]
      -- edge path: the selection came from the edge record and the boxes are
      -- not near-parallel
      obtain ⟨hA, hB, hpar⟩ := searchPhase_fields sq (setup a b) r hsp
      have hax : (select r).axis = r.eaxis ∧ (setup a b).parallel = false := by
        rcases select_cases r with hsel | hsel | hsel
        · rw [hsel]
          rcases hpar with ⟨_, he, _⟩ | ⟨hpf, _⟩
          · exact absurd (by rw [hsel]; exact he) hmax
          · exact ⟨rfl, hpf⟩
        · rw [hsel] at hmax hlt ⊢
          dsimp only [] at hmax hlt
          rcases hB with hb | hb
          · exact absurd hb hmax
          · exact absurd hb.2 (by omega)
        · rw [hsel] at hmax hlt ⊢
          dsimp only [] at hmax hlt
          rcases hA with ha | ha
          · exact absurd ha hmax
          · exact absurd ha (by omega)
      have hqa : (setup a b).atx.rotation.normSq = 1 := by
        rw [setup_atx]
        show (a.transform.rotation.qmul a.localOffset.rotation).normSq = 1
        rw [Quat.normSq_qmul, ha1, ha2]
        norm_num
      have hqb : (setup a b).btx.rotation.normSq = 1 := by
        rw [setup_btx]
        show (b.transform.rotation.qmul b.localOffset.rotation).normSq = 1
        rw [Quat.normSq_qmul, hb1, hb2]
        norm_num
      obtain ⟨ka, ca, hka, hcav, hda⟩ := support_edge_diff (setup a b).atx (setup a b).ea
        (oriFlip ((setup a b).atx.rotation.rotate
          (oriFlip (select r).n
            ((setup a b).btx.translation - (setup a b).atx.translation)))
          ((setup a b).btx.translation - (setup a b).atx.translation))
      obtain ⟨kb, cb, hkb, hcbv, hdb⟩ := support_edge_diff (setup a b).btx (setup a b).eb
        (-(oriFlip ((setup a b).atx.rotation.rotate
          (oriFlip (select r).n
            ((setup a b).btx.translation - (setup a b).atx.translation)))
          ((setup a b).btx.translation - (setup a b).atx.translation)))
      have hcane : ca ≠ 0 := by
        have := Vec3.get_pos (setup a b).ea (by rw [setup_ea]; exact hea) ka hka
        rcases hcav with rfl | rfl <;> intro hc
        · nlinarith
        · nlinarith
      have hcbne : cb ≠ 0 := by
        have := Vec3.get_pos (setup a b).eb (by rw [setup_eb]; exact heb) kb hkb
        rcases hcbv with rfl | rfl <;> intro hc
        · nlinarith
        · nlinarith
      refine edgesDomainOk_of _ _ _ _
        ((Mat3.fromQuat (setup a b).atx.rotation).col ka)
        ((Mat3.fromQuat (setup a b).btx.rotation).col kb) (-ca) (-cb)
        (Vec3.sub_neg_of _ _ _ _ hda) (Vec3.sub_neg_of _ _ _ _ hdb)
        (fromQuat_col_normSq _ hqa ka hka) (fromQuat_col_normSq _ hqb kb hkb)
        ?_ (neg_ne_zero.mpr hcane) (neg_ne_zero.mpr hcbne)
      rw [fromQuat_cols_dot _ _ hqa hqb ka kb hka hkb]
      have := setup_entries_lt_one a b hax.2 kb ka hkb hka
      rw [setup_c] at this
      exact this


/-! ### Counting lemmas for the clipping bound -/

theorem adjCount_cons_le (p : Bool → Bool → Bool) (x : Bool) (bs : List Bool) :
    adjCount p bs ≤ adjCount p (x :: bs) := by
  cases bs with
  | nil => simp [adjCount]
  | cons y r => rw [show adjCount p (x :: y :: r) =
      (if p x y = true then 1 else 0) + adjCount p (y :: r) from rfl]; omega

theorem adjCount_mid (p : Bool → Bool → Bool)
    (htri : ∀ x a h, p x h = true → p x a = true ∨ p a h = true)
    (x a : Bool) (bs : List Bool) :
    adjCount p (x :: bs) ≤ adjCount p (x :: a :: bs) := by
  cases bs with
  | nil => simp [adjCount]
  | cons hb r =>
    have e1 : adjCount p (x :: hb :: r) =
        (if p x hb = true then 1 else 0) + adjCount p (hb :: r) := rfl
    have e2 : adjCount p (x :: a :: hb :: r) = (if p x a = true then 1 else 0) +
        ((if p a hb = true then 1 else 0) + adjCount p (hb :: r)) := rfl
    rw [e1, e2]
    by_cases hxh : p x hb = true
    · rcases htri x a hb hxh with h | h <;> simp [h, hxh]
    · simp [hxh]
      omega

theorem adjCount_sublist (p : Bool → Bool → Bool)
    (htri : ∀ x a h, p x h = true → p x a = true ∨ p a h = true)
    {bs' bs : List Bool} (hsub : List.Sublist bs' bs) :
    adjCount p bs' ≤ adjCount p bs ∧
      ∀ x, adjCount p (x :: bs') ≤ adjCount p (x :: bs) := by
  induction hsub with
  | slnil => exact ⟨le_refl _, fun x => le_refl _⟩
  | cons a h ih =>
    refine ⟨le_trans ih.1 (adjCount_cons_le p a _), fun x => ?_⟩
    exact le_trans (ih.2 x) (adjCount_mid p htri x a _)
  | cons₂ a h ih =>
    refine ⟨ih.2 a, fun x => ?_⟩
    have e1 : ∀ l1 : List Bool, adjCount p (x :: a :: l1) =
        (if p x a = true then 1 else 0) + adjCount p (a :: l1) := fun l1 => rfl
    rw [e1, e1]
    exact Nat.add_le_add_left (ih.2 a) _

theorem pFT_tri : ∀ x a h, pFT x h = true → pFT x a = true ∨ pFT a h = true := by
  decide

theorem pTF_tri : ∀ x a h, pTF x h = true → pTF x a = true ∨ pTF a h = true := by
  decide

/-- refining a chain by between-valued points does not increase adjacency
counts for irreflexive pair predicates. -/
theorem adjCount_refine (p : Bool → Bool → Bool) (hirr : ∀ x, p x x = false)
    (sign e : ℚ) (ax : ℕ) (q : Vec3 → Bool)
    (hq : ∀ a b : Vec3, q (refineSeg sign e ax a b) = q a ∨
      q (refineSeg sign e ax a b) = q b) :
    ∀ (l : List Vec3) (a : Vec3),
      adjCount p ((a :: refineLoop sign e ax a l).map q) ≤
        adjCount p ((a :: l).map q) := by
  intro l
  induction l with
  | nil => intro a; simp [refineLoop]
  | cons b r ih =>
    intro a
    rw [show refineLoop sign e ax a (b :: r) =
      refineSeg sign e ax a b :: b :: refineLoop sign e ax b r from rfl]
    simp only [List.map_cons]
    rw [show ∀ w1 w2 l1, adjCount p (w1 :: w2 :: l1) =
        (if p w1 w2 = true then 1 else 0) + adjCount p (w2 :: l1)
      from fun w1 w2 l1 => rfl]
    rw [show ∀ w2 w3 l1, adjCount p (w2 :: w3 :: l1) =
        (if p w2 w3 = true then 1 else 0) + adjCount p (w3 :: l1)
      from fun w2 w3 l1 => rfl]
    rw [show adjCount p (q a :: q b :: List.map q r) =
        (if p (q a) (q b) = true then 1 else 0) + adjCount p (q b :: List.map q r)
      from rfl]
    have hrec := ih b
    simp only [List.map_cons] at hrec
    rcases hq a b with hc | hc
    · rw [hc, hirr (q a)]
      simp only [Bool.false_eq_true, if_false]
      omega
    · rw [hc, hirr (q b)]
      simp only [Bool.false_eq_true, if_false]
      omega

/-- telescoping: the difference between entering and leaving crossings of a
chain is determined by its endpoint values. -/
theorem ft_sub_tf : ∀ (l : List Bool) (x y : Bool),
    (adjCount pFT (x :: l ++ [y]) : ℤ) - adjCount pTF (x :: l ++ [y]) =
      (if y then (1:ℤ) else 0) - (if x then (1:ℤ) else 0) := by
  intro l
  induction l with
  | nil =>
    intro x y
    cases x <;> cases y <;> simp [adjCount, pFT, pTF]
  | cons h t ih =>
    intro x y
    have ihy := ih h y
    cases x <;> cases h <;>
      simp only [List.cons_append, List.append_eq, adjCount, pFT, pTF, Bool.not_true,
        Bool.not_false, Bool.and_self, Bool.true_and, Bool.false_and, Bool.and_true,
        Bool.and_false, if_true, if_false] at ihy ⊢ <;>
      push_cast at ihy ⊢ <;> omega

/-- around a closed walk (equal endpoints) entering and leaving crossings
balance. -/
theorem ft_eq_tf_closed (l : List Bool) (z : Bool) :
    adjCount pFT (z :: l ++ [z]) = adjCount pTF (z :: l ++ [z]) := by
  have := ft_sub_tf l z z
  omega


theorem Vec3.get_lerp (a b : Vec3) (t : ℚ) (k : ℕ) :
    (a + (b - a) * t).get k = a.get k + (b.get k - a.get k) * t := by
  obtain ⟨a1, a2, a3⟩ := a
  obtain ⟨b1, b2, b3⟩ := b
  match k with
  | 0 => simp [Vec3.get]
  | 1 => simp [Vec3.get]
  | (n + 2) => simp [Vec3.get]

theorem interp_t_bounds (da db : ℚ)
    (h : (da < 0 ∧ 0 ≤ db) ∨ (0 ≤ da ∧ db < 0)) :
    0 ≤ da / (da - db) ∧ da / (da - db) ≤ 1 := by
  rcases h with ⟨h1, h2⟩ | ⟨h1, h2⟩
  · have hden : da - db < 0 := by linarith
    have hrw : da / (da - db) = (-da) / (db - da) := by
      rw [div_eq_div_iff (by linarith) (by linarith)]
      ring
    rw [hrw]
    constructor
    · exact div_nonneg (by linarith) (by linarith)
    · rw [div_le_one (by linarith)]
      linarith
  · have hden : 0 < da - db := by linarith
    constructor
    · exact div_nonneg h1 (by linarith)
    · rw [div_le_one hden]
      linarith

theorem convex_lt (A B e1 t : ℚ) (ht0 : 0 ≤ t) (ht1 : t ≤ 1) (hA : A < e1)
    (hB : B < e1) : A + (B - A) * t < e1 := by
  rcases le_total A B with hAB | hAB
  · nlinarith [mul_nonneg (sub_nonneg.mpr ht1) (sub_nonneg.mpr hAB)]
  · nlinarith [mul_nonneg ht0 (sub_nonneg.mpr hAB)]

theorem convex_le (A B e1 t : ℚ) (ht0 : 0 ≤ t) (ht1 : t ≤ 1) (hA : A ≤ e1)
    (hB : B ≤ e1) : A + (B - A) * t ≤ e1 := by
  rcases le_total A B with hAB | hAB
  · nlinarith [mul_nonneg (sub_nonneg.mpr ht1) (sub_nonneg.mpr hAB)]
  · nlinarith [mul_nonneg ht0 (sub_nonneg.mpr hAB)]

theorem convex_ge (A B e1 t : ℚ) (ht0 : 0 ≤ t) (ht1 : t ≤ 1) (hA : e1 ≤ A)
    (hB : e1 ≤ B) : e1 ≤ A + (B - A) * t := by
  rcases le_total A B with hAB | hAB
  · nlinarith [mul_nonneg ht0 (sub_nonneg.mpr hAB)]
  · nlinarith [mul_nonneg (sub_nonneg.mpr ht1) (sub_nonneg.mpr hAB)]

theorem convex_gt (A B e1 t : ℚ) (ht0 : 0 ≤ t) (ht1 : t ≤ 1) (hA : e1 < A)
    (hB : e1 < B) : e1 < A + (B - A) * t := by
  rcases le_total A B with hAB | hAB
  · nlinarith [mul_nonneg ht0 (sub_nonneg.mpr hAB)]
  · nlinarith [mul_nonneg (sub_nonneg.mpr ht1) (sub_nonneg.mpr hAB)]

/-- any half-space test on the canonical inserted point agrees with the test on
one of the two edge endpoints. -/
theorem hsPred_refineSeg (sign e : ℚ) (ax : ℕ) (s1 e1 : ℚ) (ax1 : ℕ) (st1 : Bool)
    (a b : Vec3) :
    hsPred s1 e1 ax1 st1 (refineSeg sign e ax a b) = hsPred s1 e1 ax1 st1 a ∨
      hsPred s1 e1 ax1 st1 (refineSeg sign e ax a b) = hsPred s1 e1 ax1 st1 b := by
  unfold refineSeg
  split_ifs with hcond
  · exact Or.inr rfl
  · by_cases hab : hsPred s1 e1 ax1 st1 a = hsPred s1 e1 ax1 st1 b
    · refine Or.inl ?_
      have hstraddle : (sign * a.get ax - e < 0 ∧ 0 ≤ sign * b.get ax - e) ∨
          (0 ≤ sign * a.get ax - e ∧ sign * b.get ax - e < 0) := by
        rcases lt_or_le (sign * a.get ax - e) 0 with hda | hda <;>
          rcases lt_or_le (sign * b.get ax - e) 0 with hdb | hdb
        · exact absurd (by simp [hda, hdb]) hcond
        · exact Or.inl ⟨hda, hdb⟩
        · exact Or.inr ⟨hda, hdb⟩
        · exact absurd (by simp [not_lt.mpr hda, not_lt.mpr hdb]) hcond
      obtain ⟨ht0, ht1⟩ := interp_t_bounds (sign * a.get ax - e)
        (sign * b.get ax - e) hstraddle
      set t := (sign * a.get ax - e) / (sign * a.get ax - e - (sign * b.get ax - e))
        with hts
      have hget : (a + (b - a) * t).get ax1 = a.get ax1 + (b.get ax1 - a.get ax1) * t :=
        Vec3.get_lerp a b t ax1
      have hsc : s1 * (a + (b - a) * t).get ax1 =
          s1 * a.get ax1 + (s1 * b.get ax1 - s1 * a.get ax1) * t := by
        rw [hget]; ring
      unfold hsPred at hab ⊢
      cases st1 with
      | true =>
        simp only [if_true, decide_eq_decide] at hab ⊢
        rw [hsc]
        by_cases hA : s1 * a.get ax1 < e1
        · have hB : s1 * b.get ax1 < e1 := hab.mp hA
          simp only [hA, iff_true]
          exact convex_lt _ _ _ _ ht0 ht1 hA hB
        · have hB : ¬ s1 * b.get ax1 < e1 := fun hh => hA (hab.mpr hh)
          simp only [hA, iff_false, not_lt]
          exact convex_ge _ _ _ _ ht0 ht1 (not_lt.mp hA) (not_lt.mp hB)
      | false =>
        simp only [Bool.false_eq_true, if_false, decide_eq_decide] at hab ⊢
        rw [hsc]
        by_cases hA : s1 * a.get ax1 ≤ e1
        · have hB : s1 * b.get ax1 ≤ e1 := hab.mp hA
          simp only [hA, iff_true]
          exact convex_le _ _ _ _ ht0 ht1 hA hB
        · have hB : ¬ s1 * b.get ax1 ≤ e1 := fun hh => hA (hab.mpr hh)
          simp only [hA, iff_false, not_le]
          exact convex_gt _ _ _ _ ht0 ht1 (not_le.mp hA) (not_le.mp hB)
    · cases hc : hsPred s1 e1 ax1 st1 (a + (b - a) *
        ((sign * a.get ax - e) / (sign * a.get ax - e - (sign * b.get ax - e)))) <;>
        cases ha : hsPred s1 e1 ax1 st1 a <;> cases hb : hsPred s1 e1 ax1 st1 b <;>
        simp_all


/-! ### Per-pass bounds for the Sutherland–Hodgman clipper -/

theorem orthoPair_length_two (sign e : ℚ) (ax ce : ℕ) (a b : ClipVertex) :
    (orthoPair sign e ax ce a b).length ≤ 2 := by
  simp only [orthoPair]
  split_ifs <;> simp

theorem orthoPair_length_one (sign e : ℚ) (ax ce : ℕ) (a b : ClipVertex)
    (hp : pFT (hsPred sign e ax true a.v) (hsPred sign e ax true b.v) = false) :
    (orthoPair sign e ax ce a b).length ≤ 1 := by
  simp only [orthoPair]
  split_ifs with h1 h2 h3
  · simp
  · simp
  · exfalso
    have ha : hsPred sign e ax true a.v = false := by
      unfold hsPred
      simp only [if_true, decide_eq_false_iff_not, not_lt]
      have h4 := h3.1
      unfold behindP at h4
      linarith
    have hb : hsPred sign e ax true b.v = true := by
      unfold hsPred
      simp only [if_true, decide_eq_true_eq]
      have h4 := h3.2
      unfold inFront at h4
      linarith
    rw [ha, hb] at hp
    simp [pFT] at hp
  · simp

theorem orthoPair_sublist (sign e : ℚ) (ax ce : ℕ) (a b : ClipVertex) :
    List.Sublist ((orthoPair sign e ax ce a b).map (fun cv => cv.v))
      [refineSeg sign e ax a.v b.v, b.v] := by
  simp only [orthoPair]
  split_ifs with h1 h2 h3
  · exact (List.Sublist.refl _).cons _
  · have hseg : refineSeg sign e ax a.v b.v = a.v + (b.v - a.v) *
        ((sign * a.v.get ax - e) /
          (sign * a.v.get ax - e - (sign * b.v.get ax - e))) := by
      unfold refineSeg
      rw [if_neg]
      have hda := h2.1
      have hdb := h2.2
      unfold inFront at hda
      unfold behindP at hdb
      simp only [decide_eq_decide]
      intro hiff
      have h5 := hiff.mp hda
      linarith
    rw [List.map_cons, List.map_nil, hseg]
    exact (List.nil_sublist _).cons₂ _
  · have hseg : refineSeg sign e ax a.v b.v = a.v + (b.v - a.v) *
        ((sign * a.v.get ax - e) /
          (sign * a.v.get ax - e - (sign * b.v.get ax - e))) := by
      unfold refineSeg
      rw [if_neg]
      have hda := h3.1
      have hdb := h3.2
      unfold behindP at hda
      unfold inFront at hdb
      simp only [decide_eq_decide]
      intro hiff
      have h5 := hiff.mpr hdb
      linarith
    rw [List.map_cons, List.map_cons, List.map_nil, hseg]
  · exact List.nil_sublist _

theorem orthoLoop_length (sign e : ℚ) (ax ce : ℕ) :
    ∀ (l : List ClipVertex) (a : ClipVertex),
      (orthoLoop sign e ax ce a l).length ≤ l.length +
        adjCount pFT ((a :: l).map (fun cv => hsPred sign e ax true cv.v)) := by
  intro l
  induction l with
  | nil => intro a; simp [orthoLoop, adjCount]
  | cons b r ih =>
    intro a
    rw [show orthoLoop sign e ax ce a (b :: r) =
      orthoPair sign e ax ce a b ++ orthoLoop sign e ax ce b r from rfl]
    rw [List.length_append]
    have h2 := ih b
    have h3 : adjCount pFT ((a :: b :: r).map (fun cv => hsPred sign e ax true cv.v)) =
        (if pFT (hsPred sign e ax true a.v) (hsPred sign e ax true b.v) = true
          then 1 else 0) +
        adjCount pFT ((b :: r).map (fun cv => hsPred sign e ax true cv.v)) := rfl
    rw [h3]
    simp only [List.length_cons]
    cases hpf : pFT (hsPred sign e ax true a.v) (hsPred sign e ax true b.v) with
    | true =>
      have h1 := orthoPair_length_two sign e ax ce a b
      simp only [hpf, if_true]
      omega
    | false =>
      have h1 := orthoPair_length_one sign e ax ce a b hpf
      simp only [hpf, Bool.false_eq_true, if_false]
      omega

theorem orthoLoop_sublist (sign e : ℚ) (ax ce : ℕ) :
    ∀ (l : List ClipVertex) (a : ClipVertex),
      List.Sublist ((orthoLoop sign e ax ce a l).map (fun cv => cv.v))
        (refineLoop sign e ax a.v (l.map (fun cv => cv.v))) := by
  intro l
  induction l with
  | nil => intro a; simp [orthoLoop, refineLoop]
  | cons b r ih =>
    intro a
    rw [show orthoLoop sign e ax ce a (b :: r) =
      orthoPair sign e ax ce a b ++ orthoLoop sign e ax ce b r from rfl]
    rw [List.map_append]
    rw [show (b :: r).map (fun cv => cv.v) = b.v :: r.map (fun cv => cv.v) from rfl]
    rw [show refineLoop sign e ax a.v (b.v :: r.map (fun cv => cv.v)) =
      [refineSeg sign e ax a.v b.v, b.v] ++
        refineLoop sign e ax b.v (r.map (fun cv => cv.v)) from rfl]
    exact (orthoPair_sublist sign e ax ce a b).append (ih b)

theorem indFT_indTF_le (x y : Bool) :
    ((if pFT x y = true then 1 else 0) : ℕ) +
      (if pTF x y = true then 1 else 0) ≤ 1 := by
  cases x <;> cases y <;> simp [pFT, pTF]

/-- one full clipping pass: the output grows by at most one vertex and the
crossing invariant is preserved. -/
theorem orthographic_master (sign e : ℚ) (ax ce : ℕ) (vin : List ClipVertex)
    (hINV : pINV (vin.map (fun cv => cv.v))) :
    (orthographic sign e ax ce vin).length ≤ vin.length + 1 ∧
      pINV ((orthographic sign e ax ce vin).map (fun cv => cv.v)) := by
  cases hlast : vin.getLast? with
  | none =>
    have hred : orthographic sign e ax ce vin = [] := by
      unfold orthographic
      rw [hlast]
    rw [hred]
    refine ⟨by simp, ?_⟩
    intro s1 e1 ax1 st1
    simp [walkOf, adjCount]
  | some a0 =>
    have hwalk : walkOf (vin.map (fun cv => cv.v)) =
        a0.v :: vin.map (fun cv => cv.v) := by
      unfold walkOf
      rw [List.getLast?_map, hlast]
      rfl
    have hred : orthographic sign e ax ce vin =
        orthoLoop sign e ax ce a0 vin := by
      unfold orthographic
      rw [hlast]
    rw [hred]
    constructor
    · have hl := orthoLoop_length sign e ax ce vin a0
      have hft := (hINV sign e ax true).1
      rw [hwalk] at hft
      have hmm : (a0.v :: vin.map (fun cv => cv.v)).map (hsPred sign e ax true) =
          (a0 :: vin).map (fun cv => hsPred sign e ax true cv.v) := by
        simp [List.map_map]
      rw [hmm] at hft
      omega
    · intro s1 e1 ax1 st1
      have hrefFT : adjCount pFT ((a0.v :: refineLoop sign e ax a0.v
          (vin.map (fun cv => cv.v))).map (hsPred s1 e1 ax1 st1)) ≤
          adjCount pFT ((a0.v :: vin.map (fun cv => cv.v)).map
            (hsPred s1 e1 ax1 st1)) :=
        adjCount_refine pFT (by decide) sign e ax (hsPred s1 e1 ax1 st1)
          (fun a b => hsPred_refineSeg sign e ax s1 e1 ax1 st1 a b) _ _
      have hrefTF : adjCount pTF ((a0.v :: refineLoop sign e ax a0.v
          (vin.map (fun cv => cv.v))).map (hsPred s1 e1 ax1 st1)) ≤
          adjCount pTF ((a0.v :: vin.map (fun cv => cv.v)).map
            (hsPred s1 e1 ax1 st1)) :=
        adjCount_refine pTF (by decide) sign e ax (hsPred s1 e1 ax1 st1)
          (fun a b => hsPred_refineSeg sign e ax s1 e1 ax1 st1 a b) _ _
      have hinvFT := (hINV s1 e1 ax1 st1).1
      have hinvTF := (hINV s1 e1 ax1 st1).2
      rw [hwalk] at hinvFT hinvTF
      have hsubPos := (orthoLoop_sublist sign e ax ce vin a0).map
        (hsPred s1 e1 ax1 st1)
      have hobsFT : adjCount pFT (((orthoLoop sign e ax ce a0 vin).map
          (fun cv => cv.v)).map (hsPred s1 e1 ax1 st1)) ≤ 1 := by
        have step1 := (adjCount_sublist pFT pFT_tri hsubPos).1
        have step2 := adjCount_cons_le pFT (hsPred s1 e1 ax1 st1 a0.v)
          ((refineLoop sign e ax a0.v (vin.map (fun cv => cv.v))).map
            (hsPred s1 e1 ax1 st1))
        have step3 : (a0.v :: refineLoop sign e ax a0.v
            (vin.map (fun cv => cv.v))).map (hsPred s1 e1 ax1 st1) =
            hsPred s1 e1 ax1 st1 a0.v :: (refineLoop sign e ax a0.v
              (vin.map (fun cv => cv.v))).map (hsPred s1 e1 ax1 st1) := rfl
      
        rw [step3] at hrefFT
        omega
      have hobsTF : adjCount pTF (((orthoLoop sign e ax ce a0 vin).map
          (fun cv => cv.v)).map (hsPred s1 e1 ax1 st1)) ≤ 1 := by
        have step1 := (adjCount_sublist pTF pTF_tri hsubPos).1
        have step2 := adjCount_cons_le pTF (hsPred s1 e1 ax1 st1 a0.v)
          ((refineLoop sign e ax a0.v (vin.map (fun cv => cv.v))).map
            (hsPred s1 e1 ax1 st1))
        have step3 : (a0.v :: refineLoop sign e ax a0.v
            (vin.map (fun cv => cv.v))).map (hsPred s1 e1 ax1 st1) =
            hsPred s1 e1 ax1 st1 a0.v :: (refineLoop sign e ax a0.v
              (vin.map (fun cv => cv.v))).map (hsPred s1 e1 ax1 st1) := rfl
        rw [step3] at hrefTF
        omega
      cases houtlast : (orthoLoop sign e ax ce a0 vin).getLast? with
      | none =>
        have hemp : walkOf ((orthoLoop sign e ax ce a0 vin).map
            (fun cv => cv.v)) = [] := by
          unfold walkOf
          rw [List.getLast?_map, houtlast]
          rfl
        rw [hemp]
        simp [adjCount]
      | some z =>
        have hwout : walkOf ((orthoLoop sign e ax ce a0 vin).map
            (fun cv => cv.v)) = z.v :: (orthoLoop sign e ax ce a0 vin).map
            (fun cv => cv.v) := by
          unfold walkOf
          rw [List.getLast?_map, houtlast]
          rfl
        rw [hwout]
        cases hoc : orthoLoop sign e ax ce a0 vin with
        | nil => rw [hoc] at houtlast; exact absurd houtlast (by simp)
        | cons c0 rest =>
          rw [hoc] at hobsFT hobsTF houtlast
          -- the bool chain of the output, with its closing seam
          have hlastb : (((c0 :: rest).map (fun cv => cv.v)).map
              (hsPred s1 e1 ax1 st1)).getLast? =
              Option.some (hsPred s1 e1 ax1 st1 z.v) := by
            rw [List.getLast?_map, List.getLast?_map, houtlast]
            rfl
          have hdecomp := List.dropLast_append_getLast?
            (l := ((c0 :: rest).map (fun cv => cv.v)).map (hsPred s1 e1 ax1 st1))
            (hsPred s1 e1 ax1 st1 z.v) (by rw [hlastb]; rfl)
          have hclosed := ft_eq_tf_closed
            ((((c0 :: rest).map (fun cv => cv.v)).map
              (hsPred s1 e1 ax1 st1)).dropLast) (hsPred s1 e1 ax1 st1 z.v)
          rw [List.cons_append] at hclosed
          rw [hdecomp] at hclosed
          -- seam contribution plus open-chain counts bound the closed counts
          have hheads : ((c0 :: rest).map (fun cv => cv.v)).map
              (hsPred s1 e1 ax1 st1) = hsPred s1 e1 ax1 st1 c0.v ::
              (rest.map (fun cv => cv.v)).map (hsPred s1 e1 ax1 st1) := rfl
          have hseamFT : adjCount pFT ((z.v :: (c0 :: rest).map
              (fun cv => cv.v)).map (hsPred s1 e1 ax1 st1)) =
              (if pFT (hsPred s1 e1 ax1 st1 z.v) (hsPred s1 e1 ax1 st1 c0.v) = true
                then 1 else 0) + adjCount pFT (((c0 :: rest).map
                (fun cv => cv.v)).map (hsPred s1 e1 ax1 st1)) := rfl
          have hseamTF : adjCount pTF ((z.v :: (c0 :: rest).map
              (fun cv => cv.v)).map (hsPred s1 e1 ax1 st1)) =
              (if pTF (hsPred s1 e1 ax1 st1 z.v) (hsPred s1 e1 ax1 st1 c0.v) = true
                then 1 else 0) + adjCount pTF (((c0 :: rest).map
                (fun cv => cv.v)).map (hsPred s1 e1 ax1 st1)) := rfl
          have hind := indFT_indTF_le (hsPred s1 e1 ax1 st1 z.v)
            (hsPred s1 e1 ax1 st1 c0.v)
          have hcl : adjCount pFT ((z.v :: (c0 :: rest).map
              (fun cv => cv.v)).map (hsPred s1 e1 ax1 st1)) =
              adjCount pTF ((z.v :: (c0 :: rest).map
                (fun cv => cv.v)).map (hsPred s1 e1 ax1 st1)) := by
            rw [hseamFT, hseamTF]
            have e2 : hsPred s1 e1 ax1 st1 z.v :: ((c0 :: rest).map
                (fun cv => cv.v)).map (hsPred s1 e1 ax1 st1) =
                hsPred s1 e1 ax1 st1 z.v ::
                ((((c0 :: rest).map (fun cv => cv.v)).map
                  (hsPred s1 e1 ax1 st1)).dropLast ++
                  [hsPred s1 e1 ax1 st1 z.v]) := by rw [hdecomp]
            have e3 := hclosed
            rw [show adjCount pFT (hsPred s1 e1 ax1 st1 z.v :: ((c0 :: rest).map
                (fun cv => cv.v)).map (hsPred s1 e1 ax1 st1)) =
                (if pFT (hsPred s1 e1 ax1 st1 z.v) (hsPred s1 e1 ax1 st1 c0.v) = true
                  then 1 else 0) + adjCount pFT (((c0 :: rest).map
                  (fun cv => cv.v)).map (hsPred s1 e1 ax1 st1)) from rfl] at e3
            rw [show adjCount pTF (hsPred s1 e1 ax1 st1 z.v :: ((c0 :: rest).map
                (fun cv => cv.v)).map (hsPred s1 e1 ax1 st1)) =
                (if pTF (hsPred s1 e1 ax1 st1 z.v) (hsPred s1 e1 ax1 st1 c0.v) = true
                  then 1 else 0) + adjCount pTF (((c0 :: rest).map
                  (fun cv => cv.v)).map (hsPred s1 e1 ax1 st1)) from rfl] at e3
            omega
          constructor
          · rw [hseamFT]
            rw [hseamFT, hseamTF] at hcl
            omega
          · rw [hseamTF]
            rw [hseamFT, hseamTF] at hcl
            omega

/-! ### The incident face is a parallelogram -/

theorem Vec3.get_alt (v1 v2 v3 v4 : Vec3) (h : v1 - v2 + v3 - v4 = Vec3.zero)
    (k : ℕ) : v1.get k - v2.get k + v3.get k - v4.get k = 0 := by
  obtain ⟨a1, a2, a3⟩ := v1
  obtain ⟨b1, b2, b3⟩ := v2
  obtain ⟨c1, c2, c3⟩ := v3
  obtain ⟨d1, d2, d3⟩ := v4
  simp only [Vec3.sub_mk, Vec3.add_mk, Vec3.zero, Vec3.mk.injEq] at h
  obtain ⟨h1, h2, h3⟩ := h
  match k with
  | 0 => simpa [Vec3.get] using h1
  | 1 => simpa [Vec3.get] using h2
  | (n + 2) => simpa [Vec3.get] using h3

theorem Mat3.mulVec_alt (m : Mat3) (p1 p2 p3 p4 : Vec3)
    (h : p1 - p2 + p3 - p4 = Vec3.zero) :
    m.mulVec p1 - m.mulVec p2 + m.mulVec p3 - m.mulVec p4 = Vec3.zero := by
  obtain ⟨⟨x1, x2, x3⟩, ⟨y1, y2, y3⟩, ⟨z1, z2, z3⟩⟩ := m
  obtain ⟨a1, a2, a3⟩ := p1
  obtain ⟨b1, b2, b3⟩ := p2
  obtain ⟨c1, c2, c3⟩ := p3
  obtain ⟨d1, d2, d3⟩ := p4
  simp only [Vec3.sub_mk, Vec3.add_mk, Vec3.zero, Vec3.mk.injEq] at h
  obtain ⟨h1, h2, h3⟩ := h
  simp only [Mat3.mulVec_mk, Vec3.smul_mk, Vec3.add_mk, Vec3.sub_mk,
    Vec3.zero, Vec3.mk.injEq]
  refine ⟨by linear_combination x1 * h1 + y1 * h2 + z1 * h3,
    by linear_combination x2 * h1 + y2 * h2 + z2 * h3,
    by linear_combination x3 * h1 + y3 * h2 + z3 * h3⟩

theorem Vec3.add_const_alt (w1 w2 w3 w4 tr : Vec3)
    (h : w1 - w2 + w3 - w4 = Vec3.zero) :
    (w1 + tr) - (w2 + tr) + (w3 + tr) - (w4 + tr) = Vec3.zero := by
  obtain ⟨a1, a2, a3⟩ := w1
  obtain ⟨b1, b2, b3⟩ := w2
  obtain ⟨c1, c2, c3⟩ := w3
  obtain ⟨d1, d2, d3⟩ := w4
  obtain ⟨t1, t2, t3⟩ := tr
  simp only [Vec3.sub_mk, Vec3.add_mk, Vec3.zero, Vec3.mk.injEq] at h ⊢
  obtain ⟨h1, h2, h3⟩ := h
  refine ⟨by linarith, by linarith, by linarith⟩

theorem Vec3.sub_const_alt (w1 w2 w3 w4 r : Vec3)
    (h : w1 - w2 + w3 - w4 = Vec3.zero) :
    (w1 - r) - (w2 - r) + (w3 - r) - (w4 - r) = Vec3.zero := by
  obtain ⟨a1, a2, a3⟩ := w1
  obtain ⟨b1, b2, b3⟩ := w2
  obtain ⟨c1, c2, c3⟩ := w3
  obtain ⟨d1, d2, d3⟩ := w4
  obtain ⟨t1, t2, t3⟩ := r
  simp only [Vec3.sub_mk, Vec3.zero, Vec3.add_mk, Vec3.mk.injEq] at h ⊢
  obtain ⟨h1, h2, h3⟩ := h
  refine ⟨by linarith, by linarith, by linarith⟩

theorem tp3_alt (t : Transform) (p1 p2 p3 p4 : Vec3)
    (h : p1 - p2 + p3 - p4 = Vec3.zero) :
    t.tp3 p1 - t.tp3 p2 + t.tp3 p3 - t.tp3 p4 = Vec3.zero := by
  unfold Transform.tp3
  exact Vec3.add_const_alt _ _ _ _ _ (Mat3.mulVec_alt _ _ _ _ _ h)

/-- the four incident vertices always form a parallelogram: the alternating
sum of their positions vanishes in every branch of the selection. -/
theorem incident_pgram (itx : Transform) (e n0 : Vec3) :
    ∃ c1 c2 c3 c4 : ClipVertex,
      compute_incident_face itx e n0 = [c1, c2, c3, c4] ∧
        c1.v - c2.v + c3.v - c4.v = Vec3.zero := by
  simp only [compute_incident_face]
  obtain ⟨ex, ey, ez⟩ := e
  split_ifs <;>
    exact ⟨_, _, _, _, rfl, tp3_alt itx _ _ _ _ (by
      simp only [Vec3.sub_mk, Vec3.add_mk, Vec3.zero, Vec3.mk.injEq]
      refine ⟨by ring, by ring, by ring⟩)⟩

theorem clipVin_pgram (rpos : Vec3) (basis : Mat3) (incident : List ClipVertex)
    (c1 c2 c3 c4 : ClipVertex) (hinc : incident = [c1, c2, c3, c4])
    (h : c1.v - c2.v + c3.v - c4.v = Vec3.zero) :
    ∃ d1 d2 d3 d4 : ClipVertex,
      clipVin rpos basis incident = [d1, d2, d3, d4] ∧
        d1.v - d2.v + d3.v - d4.v = Vec3.zero := by
  subst hinc
  refine ⟨_, _, _, _, rfl, ?_⟩
  show basis.mult (c1.v - rpos) - basis.mult (c2.v - rpos) +
      basis.mult (c3.v - rpos) - basis.mult (c4.v - rpos) = Vec3.zero
  unfold Mat3.mult
  exact Mat3.mulVec_alt _ _ _ _ _ (Vec3.sub_const_alt _ _ _ _ _ h)

theorem adjCount_pgram_bool : ∀ a1 a2 a3 a4 : Bool,
    ¬(a1 = a3 ∧ a2 = a4 ∧ ¬ a1 = a2) →
      adjCount pFT [a4, a1, a2, a3, a4] ≤ 1 ∧
        adjCount pTF [a4, a1, a2, a3, a4] ≤ 1 := by
  decide

/-- a planar parallelogram satisfies the convexity invariant: along its cyclic
walk every half-space test changes value at most twice. -/
theorem pINV_pgram (v1 v2 v3 v4 : Vec3) (h : v1 - v2 + v3 - v4 = Vec3.zero) :
    pINV [v1, v2, v3, v4] := by
  intro s e ax strict
  have hmap : (walkOf [v1, v2, v3, v4]).map (hsPred s e ax strict) =
      [hsPred s e ax strict v4, hsPred s e ax strict v1, hsPred s e ax strict v2,
        hsPred s e ax strict v3, hsPred s e ax strict v4] := rfl
  rw [hmap]
  refine adjCount_pgram_bool _ _ _ _ ?_
  rintro ⟨h13, h24, h12⟩
  have hg := Vec3.get_alt v1 v2 v3 v4 h ax
  have hs : s * v1.get ax - s * v2.get ax + s * v3.get ax - s * v4.get ax = 0 := by
    linear_combination s * hg
  cases strict with
  | false =>
    have h13q : decide (s * v1.get ax ≤ e) = decide (s * v3.get ax ≤ e) := h13
    have h24q : decide (s * v2.get ax ≤ e) = decide (s * v4.get ax ≤ e) := h24
    have h12q : ¬ decide (s * v1.get ax ≤ e) = decide (s * v2.get ax ≤ e) := h12
    rw [decide_eq_decide] at h13q h24q
    by_cases h1 : s * v1.get ax ≤ e
    · have h3 := h13q.mp h1
      have h2 : ¬ s * v2.get ax ≤ e := fun hx =>
        h12q (decide_eq_decide.mpr (iff_of_true h1 hx))
      have h4 : ¬ s * v4.get ax ≤ e := fun hx => h2 (h24q.mpr hx)
      have h2l := not_le.mp h2
      have h4l := not_le.mp h4
      linarith [hs]
    · have h3 : ¬ s * v3.get ax ≤ e := fun hx => h1 (h13q.mpr hx)
      have h2 : s * v2.get ax ≤ e := by
        by_contra hx
        exact h12q (decide_eq_decide.mpr (iff_of_false h1 hx))
      have h4 := h24q.mp h2
      have h1l := not_le.mp h1
      have h3l := not_le.mp h3
      linarith [hs]
  | true =>
    have h13q : decide (s * v1.get ax < e) = decide (s * v3.get ax < e) := h13
    have h24q : decide (s * v2.get ax < e) = decide (s * v4.get ax < e) := h24
    have h12q : ¬ decide (s * v1.get ax < e) = decide (s * v2.get ax < e) := h12
    rw [decide_eq_decide] at h13q h24q
    by_cases h1 : s * v1.get ax < e
    · have h3 := h13q.mp h1
      have h2 : ¬ s * v2.get ax < e := fun hx =>
        h12q (decide_eq_decide.mpr (iff_of_true h1 hx))
      have h4 : ¬ s * v4.get ax < e := fun hx => h2 (h24q.mpr hx)
      have h2l := not_lt.mp h2
      have h4l := not_lt.mp h4
      linarith [hs]
    · have h3 : ¬ s * v3.get ax < e := fun hx => h1 (h13q.mpr hx)
      have h2 : s * v2.get ax < e := by
        by_contra hx
        exact h12q (decide_eq_decide.mpr (iff_of_false h1 hx))
      have h4 := h24q.mp h2
      have h1l := not_lt.mp h1
      have h3l := not_lt.mp h3
      linarith [hs]

/-! ### The clipping chain never exceeds eight vertices -/

theorem clip_chain (rpos e0 : Vec3) (ces : CEdges) (basis : Mat3)
    (incident : List ClipVertex)
    (c1 c2 c3 c4 : ClipVertex) (hinc : incident = [c1, c2, c3, c4])
    (hpg : c1.v - c2.v + c3.v - c4.v = Vec3.zero) :
    (clipP1 rpos e0 ces basis incident).length ≤ 5 ∧
      (clipP2 rpos e0 ces basis incident).length ≤ 6 ∧
      (clipP3 rpos e0 ces basis incident).length ≤ 7 ∧
      (clipP4 rpos e0 ces basis incident).length ≤ 8 ∧
      (clip rpos e0 ces basis incident).length ≤ 8 := by
  obtain ⟨d1, d2, d3, d4, hvin, hdp⟩ :=
    clipVin_pgram rpos basis incident c1 c2 c3 c4 hinc hpg
  have hINV0 : pINV ((clipVin rpos basis incident).map (fun cv => cv.v)) := by
    rw [hvin]
    exact pINV_pgram _ _ _ _ hdp
  have hlen0 : (clipVin rpos basis incident).length = 4 := by rw [hvin]; rfl
  have h1 := orthographic_master 1 e0.x 0 ces.e0 (clipVin rpos basis incident) hINV0
  have hp1 : pINV ((clipP1 rpos e0 ces basis incident).map (fun cv => cv.v)) := h1.2
  have hl1 : (clipP1 rpos e0 ces basis incident).length ≤ 5 := by
    have := h1.1
    rw [hlen0] at this
    exact this
  have h2 := orthographic_master 1 e0.y 1 ces.e1
    (clipP1 rpos e0 ces basis incident) hp1
  have hp2 : pINV ((clipP2 rpos e0 ces basis incident).map (fun cv => cv.v)) := h2.2
  have hl2 : (clipP2 rpos e0 ces basis incident).length ≤ 6 := by
    have h2c : (clipP2 rpos e0 ces basis incident).length ≤
        (clipP1 rpos e0 ces basis incident).length + 1 := h2.1
    omega
  have h3 := orthographic_master (-1) e0.x 0 ces.e2
    (clipP2 rpos e0 ces basis incident) hp2
  have hp3 : pINV ((clipP3 rpos e0 ces basis incident).map (fun cv => cv.v)) := h3.2
  have hl3 : (clipP3 rpos e0 ces basis incident).length ≤ 7 := by
    have h3c : (clipP3 rpos e0 ces basis incident).length ≤
        (clipP2 rpos e0 ces basis incident).length + 1 := h3.1
    omega
  have h4 := orthographic_master (-1) e0.y 1 ces.e3
    (clipP3 rpos e0 ces basis incident) hp3
  have hl4 : (clipP4 rpos e0 ces basis incident).length ≤ 8 := by
    have h4c : (clipP4 rpos e0 ces basis incident).length ≤
        (clipP3 rpos e0 ces basis incident).length + 1 := h4.1
    omega
  refine ⟨hl1, hl2, hl3, hl4, ?_⟩
  unfold clip
  split_ifs
  · simp
  · simp
  · simp
  · exact le_trans (List.length_filterMap_le _ _) hl4

/-- every face-branch manifold carries at most eight contacts, and the four
pass buffers stay within eight vertices. -/
theorem faceCase_contacts_le (a b : Obb) (st : Setup) (axis : ℕ) (smax : ℚ)
    (n0 : Vec3) (m : Manifold) (h : faceCase a b st axis smax n0 = Option.some m) :
    m.contacts.length ≤ 8 := by
  obtain ⟨-, -, rtx, er, ei, itx, hc⟩ := faceCase_contacts a b st axis smax n0 m h
  rw [hc, List.length_map]
  obtain ⟨c1, c2, c3, c4, hinc, hpg⟩ :=
    incident_pgram itx ei (if axis < 3 then n0 else -n0)
  exact (clip_chain _ _ _ _ _ c1 c2 c3 c4 hinc hpg).2.2.2.2

/-! ### Evaluation on the coincident unit boxes -/

theorem setup_unit : setup obbUA obbUB = stUnit := by
  norm_num [setup, obbUA, obbUB, Transform.compose, Transform.idt, Quat.qmul,
    Quat.conj, Quat.rotate, Quat.id, Mat3.fromQuat, Mat3.entry, parEps,
    Vec3.zero, stUnit]

theorem facePhase_unit : facePhase stUnit = Option.some rUnit := by
  norm_num [facePhase, stepA, stepB, track_face_axis, faceS, faceN, stUnit,
    rUnit, SearchSt.init, f32Min, u32Max, Mat3.entry, Mat3.row, Transform.trunc,
    Transform.idt, Quat.id, Mat3.fromQuat, Vec3.zero, Option.bind]

theorem searchPhase_unit : searchPhase sqrtQ stUnit = Option.some rUnit := by
  rw [searchPhase, facePhase_unit]
  norm_num [stUnit]

theorem select_unit : select rUnit = ⟨3, -1, ⟨1, 0, 0⟩⟩ := by
  norm_num [select, rUnit, REL_TOLERANCE, ABS_TOLERANCE, f32Min, u32Max]

theorem incident_unit :
    compute_incident_face Transform.idt ⟨1/2, 1/2, 1/2⟩ ⟨-1, 0, 0⟩ = incUnit := by
  norm_num [compute_incident_face, Transform.idt, Transform.tp3, Quat.id,
    Quat.conj, Quat.rotate, Mat3.fromQuat, mkIncident, FeaturePair.default,
    Vec3.zero, incUnit]

theorem refeb_unit :
    compute_reference_edges_and_basis ⟨1/2, 1/2, 1/2⟩ Transform.idt ⟨-1, 0, 0⟩ 3 =
      ⟨⟨11, 3, 10, 5⟩, basisU, ⟨1/2, 1/2, 1/2⟩⟩ := by
  norm_num [compute_reference_edges_and_basis, adjAxis, Transform.idt, Quat.id,
    Quat.conj, Quat.rotate, Mat3.fromQuat, Mat3.row, Mat3.col, basisU]

theorem clipVin_unit : clipVin ⟨0, 0, 0⟩ basisU incUnit = vinUnit := by
  norm_num [clipVin, Mat3.mult, basisU, incUnit, vinUnit]

theorem pass1_unit : orthographic 1 (1/2) 0 11 vinUnit = vinUnit := by
  norm_num [orthographic, orthoLoop, orthoPair, inFront, behindP, onPlane,
    List.getLast?, vinUnit]

theorem pass2_unit : orthographic 1 (1/2) 1 3 vinUnit = vinUnit := by
  norm_num [orthographic, orthoLoop, orthoPair, inFront, behindP, onPlane,
    List.getLast?, vinUnit]

theorem pass3_unit : orthographic (-1) (1/2) 0 10 vinUnit = vinUnit := by
  norm_num [orthographic, orthoLoop, orthoPair, inFront, behindP, onPlane,
    List.getLast?, vinUnit]

theorem pass4_unit : orthographic (-1) (1/2) 1 5 vinUnit = vinUnit := by
  norm_num [orthographic, orthoLoop, orthoPair, inFront, behindP, onPlane,
    List.getLast?, vinUnit]

theorem clipP1_unit :
    clipP1 ⟨0, 0, 0⟩ ⟨1/2, 1/2, 1/2⟩ ⟨11, 3, 10, 5⟩ basisU incUnit = vinUnit := by
  rw [clipP1, clipVin_unit]
  exact pass1_unit

theorem clipP2_unit :
    clipP2 ⟨0, 0, 0⟩ ⟨1/2, 1/2, 1/2⟩ ⟨11, 3, 10, 5⟩ basisU incUnit = vinUnit := by
  rw [clipP2, clipP1_unit]
  exact pass2_unit

theorem clipP3_unit :
    clipP3 ⟨0, 0, 0⟩ ⟨1/2, 1/2, 1/2⟩ ⟨11, 3, 10, 5⟩ basisU incUnit = vinUnit := by
  rw [clipP3, clipP2_unit]
  exact pass3_unit

theorem clipP4_unit :
    clipP4 ⟨0, 0, 0⟩ ⟨1/2, 1/2, 1/2⟩ ⟨11, 3, 10, 5⟩ basisU incUnit = vinUnit := by
  rw [clipP4, clipP3_unit]
  exact pass4_unit

theorem clip_unit :
    clip ⟨0, 0, 0⟩ ⟨1/2, 1/2, 1/2⟩ ⟨11, 3, 10, 5⟩ basisU incUnit =
      [(⟨⟨1/2, 1/2, -1/2⟩, ⟨255, 255, 9, 1⟩⟩, 0),
       (⟨⟨1/2, 1/2, 1/2⟩, ⟨255, 255, 1, 8⟩⟩, 0),
       (⟨⟨1/2, -1/2, 1/2⟩, ⟨255, 255, 8, 7⟩⟩, 0),
       (⟨⟨1/2, -1/2, -1/2⟩, ⟨255, 255, 7, 9⟩⟩, 0)] := by
  rw [clip, clipP1_unit, clipP2_unit, clipP3_unit, clipP4_unit]
  norm_num [vinUnit, basisU, List.filterMap, Mat3.mulVec]
  simp

theorem faceCase_unit :
    faceCase obbUA obbUB stUnit 3 (-1) ⟨1, 0, 0⟩ = Option.some mUnit := by
  have hidt : Transform.idt.translation = (⟨0, 0, 0⟩ : Vec3) := rfl
  simp only [faceCase, stUnit, obbUA, obbUB]
  norm_num [hidt, incident_unit, refeb_unit]
  rw [clip_unit]
  norm_num [mUnit]

/-- full evaluation of `box_to_box` on the coincident unit boxes. -/
theorem box_to_box_unit : box_to_box sqrtQ obbUA obbUB = Option.some mUnit := by
  rw [box_to_box_eq, setup_unit, searchPhase_unit]
  simp only [select_unit]
  norm_num [u32Max, stUnit, oriFlip, Transform.idt, Vec3.zero]
  exact faceCase_unit

/-! ### Evaluating the executable square root -/

theorem nat_sqrt_eval (n k : ℕ) (h1 : k * k ≤ n) (h2 : n < (k + 1) * (k + 1)) :
    Nat.sqrt n = k := by
  have hle : k ≤ Nat.sqrt n := Nat.le_sqrt.mpr (by nlinarith)
  have hlt : Nat.sqrt n < k + 1 := by
    by_contra hc
    push_neg at hc
    nlinarith [Nat.sqrt_le' n, Nat.lt_succ_sqrt' n]
  omega

theorem sqrtQ_one : sqrtQ 1 = 1 := by
  have hn : (1 : ℚ).num = 1 := by norm_num
  have hd : (1 : ℚ).den = 1 := by norm_num
  have ht : (1 : ℤ).toNat = 1 := rfl
  rw [sqrtQ, if_neg (by norm_num)]
  norm_num [hn, hd, ht, Nat.sqrt_one]

theorem sqrtQ_a : sqrtQ (576/625) = 24/25 := by
  have hn : ((576 : ℚ)/625).num = 576 := by norm_num
  have hd : ((576 : ℚ)/625).den = 625 := by norm_num
  have ht : (576 : ℤ).toNat = 576 := rfl
  have hs1 : Nat.sqrt 576 = 24 := nat_sqrt_eval _ _ (by norm_num) (by norm_num)
  have hs2 : Nat.sqrt 625 = 25 := nat_sqrt_eval _ _ (by norm_num) (by norm_num)
  rw [sqrtQ, if_neg (by norm_num)]
  norm_num [hn, hd, ht, hs1, hs2]

theorem sqrtQ_b : sqrtQ (49/625) = 7/25 := by
  have hn : ((49 : ℚ)/625).num = 49 := by norm_num
  have hd : ((49 : ℚ)/625).den = 625 := by norm_num
  have ht : (49 : ℤ).toNat = 49 := rfl
  have hs1 : Nat.sqrt 49 = 7 := nat_sqrt_eval _ _ (by norm_num) (by norm_num)
  have hs2 : Nat.sqrt 625 = 25 := nat_sqrt_eval _ _ (by norm_num) (by norm_num)
  rw [sqrtQ, if_neg (by norm_num)]
  norm_num [hn, hd, ht, hs1, hs2]

theorem sqrtQ_c : sqrtQ (362401/390625) = 376248/390625 := by
  have hn : ((362401 : ℚ)/390625).num = 362401 := by norm_num
  have hd : ((362401 : ℚ)/390625).den = 390625 := by norm_num
  have ht : (362401 : ℤ).toNat = 362401 := rfl
  have hs1 : Nat.sqrt 362401 = 601 := nat_sqrt_eval _ _ (by norm_num) (by norm_num)
  have hs3 : Nat.sqrt (362401 * 390625) = 376248 :=
    nat_sqrt_eval _ _ (by norm_num) (by norm_num)
  rw [sqrtQ, if_neg (by norm_num)]
  norm_num [hn, hd, ht, hs1, hs3]

theorem sqrtQ_d : sqrtQ (388224/390625) = 389422/390625 := by
  have hn : ((388224 : ℚ)/390625).num = 388224 := by norm_num
  have hd : ((388224 : ℚ)/390625).den = 390625 := by norm_num
  have ht : (388224 : ℤ).toNat = 388224 := rfl
  have hs1 : Nat.sqrt 388224 = 623 := nat_sqrt_eval _ _ (by norm_num) (by norm_num)
  have hs3 : Nat.sqrt (388224 * 390625) = 389422 :=
    nat_sqrt_eval _ _ (by norm_num) (by norm_num)
  rw [sqrtQ, if_neg (by norm_num)]
  norm_num [hn, hd, ht, hs1, hs3]

theorem sqrtQ_e : sqrtQ (58849/390625) = 151617/390625 := by
  have hn : ((58849 : ℚ)/390625).num = 58849 := by norm_num
  have hd : ((58849 : ℚ)/390625).den = 390625 := by norm_num
  have ht : (58849 : ℤ).toNat = 58849 := rfl
  have hs1 : Nat.sqrt 58849 = 242 := nat_sqrt_eval _ _ (by norm_num) (by norm_num)
  have hs3 : Nat.sqrt (58849 * 390625) = 151617 :=
    nat_sqrt_eval _ _ (by norm_num) (by norm_num)
  rw [sqrtQ, if_neg (by norm_num)]
  norm_num [hn, hd, ht, hs1, hs3]

/-! ### Evaluation on the edge-contact witness -/

theorem setupE : setup obbEA obbEB = stE := by
  norm_num [setup, obbEA, obbEB, Transform.compose, Transform.idt, Quat.qmul,
    Quat.conj, Quat.rotate, Quat.id, Mat3.fromQuat, Mat3.entry, parEps,
    Vec3.zero, stE, cE, abscE, qE]
  refine ⟨⟨⟨⟨⟨⟨⟨?_, ?_⟩, ?_⟩, ?_⟩, ?_⟩, ?_⟩, ?_⟩, ?_⟩
  all_goals
    rw [abs_of_nonneg (by norm_num)]
    norm_num

theorem setupZ : setup obbEA obbZB = stZ := by
  norm_num [setup, obbEA, obbZB, Transform.compose, Transform.idt, Quat.qmul,
    Quat.conj, Quat.rotate, Quat.id, Mat3.fromQuat, Mat3.entry, parEps,
    Vec3.zero, stZ, cE, abscE, qE]
  refine ⟨⟨⟨⟨⟨⟨⟨?_, ?_⟩, ?_⟩, ?_⟩, ?_⟩, ?_⟩, ?_⟩, ?_⟩
  all_goals
    rw [abs_of_nonneg (by norm_num)]
    norm_num

theorem facePhaseE : facePhase stE = Option.some rEf := by
  norm_num [facePhase, stepA, stepB, track_face_axis, faceS, faceN, stE, rEf,
    SearchSt.init, f32Min, u32Max, Mat3.entry, Mat3.row, Mat3.col, Transform.trunc,
    Transform.idt, Quat.id, Mat3.fromQuat, Vec3.zero, Option.bind, cE, abscE, qE]

theorem facePhaseZ : facePhase stZ = Option.some rZf := by
  norm_num [facePhase, stepA, stepB, track_face_axis, faceS, faceN, stZ, rZf,
    SearchSt.init, f32Min, u32Max, Mat3.entry, Mat3.row, Mat3.col, Transform.trunc,
    Transform.idt, Quat.id, Mat3.fromQuat, Vec3.zero, Option.bind, cE, abscE, qE]

theorem stepE6E : stepE sqrtQ stE 6 rEf = Option.some rE := by
  norm_num [stepE, track_edge_axis, lengthReciprocal, edgeS, edgeN, stE, rEf, rE,
    Mat3.entry, Mat3.col, f32Min, u32Max, Vec3.zero, cE, abscE, sqrtQ_a]

theorem stepE7E : stepE sqrtQ stE 7 rE = Option.some rE := by
  norm_num [stepE, track_edge_axis, lengthReciprocal, edgeS, edgeN, stE, rE,
    Mat3.entry, Mat3.col, Vec3.zero, cE, abscE, sqrtQ_b]

theorem stepE8E : stepE sqrtQ stE 8 rE = Option.some rE := by
  norm_num [stepE, track_edge_axis, lengthReciprocal, edgeS, edgeN, stE, rE,
    Mat3.entry, Mat3.col, Vec3.zero, cE, abscE, sqrtQ_one]

theorem stepE9E : stepE sqrtQ stE 9 rE = Option.some rE := by
  have htr : track_edge_axis sqrtQ 9 (edgeS stE 9) rE.emax (edgeN stE 9) =
      TrackFaceAxis.keep := by
    rw [track_edge_axis]
    rw [if_neg (by norm_num [edgeS, stE, Mat3.entry, Mat3.col, cE, abscE])]
    have h2 : (edgeN stE 9).dot (edgeN stE 9) = 362401/390625 := by
      norm_num [edgeN, stE, Mat3.entry, Mat3.col, cE, abscE]
    rw [if_neg ?hcmp]
    case hcmp =>
      rw [lengthReciprocal, h2, sqrtQ_c]
      norm_num [edgeS, stE, rE, Mat3.entry, Mat3.col, cE, abscE]
  rw [stepE, htr]

theorem stepE10E : stepE sqrtQ stE 10 rE = Option.some rE := by
  have htr : track_edge_axis sqrtQ 10 (edgeS stE 10) rE.emax (edgeN stE 10) =
      TrackFaceAxis.keep := by
    rw [track_edge_axis]
    rw [if_neg (by norm_num [edgeS, stE, Mat3.entry, Mat3.col, cE, abscE])]
    have h2 : (edgeN stE 10).dot (edgeN stE 10) = 388224/390625 := by
      norm_num [edgeN, stE, Mat3.entry, Mat3.col, cE, abscE]
    rw [if_neg ?hcmp]
    case hcmp =>
      rw [lengthReciprocal, h2, sqrtQ_d]
      norm_num [edgeS, stE, rE, Mat3.entry, Mat3.col, cE, abscE]
  rw [stepE, htr]

theorem stepE11E : stepE sqrtQ stE 11 rE = Option.some rE := by
  norm_num [stepE, track_edge_axis, lengthReciprocal, edgeS, edgeN, stE, rE,
    Mat3.entry, Mat3.col, Vec3.zero, cE, abscE, sqrtQ_b]

theorem stepE12E : stepE sqrtQ stE 12 rE = Option.some rE := by
  have htr : track_edge_axis sqrtQ 12 (edgeS stE 12) rE.emax (edgeN stE 12) =
      TrackFaceAxis.keep := by
    rw [track_edge_axis]
    rw [if_neg (by norm_num [edgeS, stE, Mat3.entry, Mat3.col, cE, abscE])]
    have h2 : (edgeN stE 12).dot (edgeN stE 12) = 58849/390625 := by
      norm_num [edgeN, stE, Mat3.entry, Mat3.col, cE, abscE]
    rw [if_neg ?hcmp]
    case hcmp =>
      rw [lengthReciprocal, h2, sqrtQ_e]
      norm_num [edgeS, stE, rE, Mat3.entry, Mat3.col, cE, abscE]
  rw [stepE, htr]

theorem stepE13E : stepE sqrtQ stE 13 rE = Option.some rE := by
  have htr : track_edge_axis sqrtQ 13 (edgeS stE 13) rE.emax (edgeN stE 13) =
      TrackFaceAxis.keep := by
    rw [track_edge_axis]
    rw [if_neg (by norm_num [edgeS, stE, Mat3.entry, Mat3.col, cE, abscE])]
    have h2 : (edgeN stE 13).dot (edgeN stE 13) = 362401/390625 := by
      norm_num [edgeN, stE, Mat3.entry, Mat3.col, cE, abscE]
    rw [if_neg ?hcmp]
    case hcmp =>
      rw [lengthReciprocal, h2, sqrtQ_c]
      norm_num [edgeS, stE, rE, Mat3.entry, Mat3.col, cE, abscE]
  rw [stepE, htr]

theorem stepE14E : stepE sqrtQ stE 14 rE = Option.some rE := by
  norm_num [stepE, track_edge_axis, lengthReciprocal, edgeS, edgeN, stE, rE,
    Mat3.entry, Mat3.col, Vec3.zero, cE, abscE, sqrtQ_a]

theorem edgePhaseE : edgePhase sqrtQ stE rEf = Option.some rE := by
  rw [edgePhase, stepE6E, Option.some_bind, stepE7E, Option.some_bind, stepE8E,
    Option.some_bind, stepE9E, Option.some_bind, stepE10E, Option.some_bind,
    stepE11E, Option.some_bind, stepE12E, Option.some_bind, stepE13E,
    Option.some_bind, stepE14E]

theorem searchPhaseE : searchPhase sqrtQ stE = Option.some rE := by
  rw [searchPhase, facePhaseE, Option.some_bind]
  rw [show stE.parallel = false from rfl]
  simp only [Bool.false_eq_true, if_false]
  exact edgePhaseE

theorem stepE6Z : stepE sqrtQ stZ 6 rZf = Option.some rZ6 := by
  norm_num [stepE, track_edge_axis, lengthReciprocal, edgeS, edgeN, stZ, rZf, rZ6,
    Mat3.entry, Mat3.col, f32Min, u32Max, Vec3.zero, cE, abscE, sqrtQ_a]

theorem stepE7Z : stepE sqrtQ stZ 7 rZ6 = Option.some rZ6 := by
  norm_num [stepE, track_edge_axis, lengthReciprocal, edgeS, edgeN, stZ, rZ6,
    Mat3.entry, Mat3.col, Vec3.zero, cE, abscE, sqrtQ_b]

theorem stepE8Z : stepE sqrtQ stZ 8 rZ6 = Option.some rZ8 := by
  norm_num [stepE, track_edge_axis, lengthReciprocal, edgeS, edgeN, stZ, rZ6, rZ8,
    Mat3.entry, Mat3.col, Vec3.zero, cE, abscE, sqrtQ_one]

theorem stepE9Z : stepE sqrtQ stZ 9 rZ8 = Option.some rZ8 := by
  have htr : track_edge_axis sqrtQ 9 (edgeS stZ 9) rZ8.emax (edgeN stZ 9) =
      TrackFaceAxis.keep := by
    rw [track_edge_axis]
    rw [if_neg (by norm_num [edgeS, stZ, Mat3.entry, Mat3.col, cE, abscE])]
    have h2 : (edgeN stZ 9).dot (edgeN stZ 9) = 362401/390625 := by
      norm_num [edgeN, stZ, Mat3.entry, Mat3.col, cE, abscE]
    rw [if_neg ?hcmp]
    case hcmp =>
      rw [lengthReciprocal, h2, sqrtQ_c]
      norm_num [edgeS, stZ, rZ8, Mat3.entry, Mat3.col, cE, abscE]
  rw [stepE, htr]

theorem stepE10Z : stepE sqrtQ stZ 10 rZ8 = Option.some rZ8 := by
  have htr : track_edge_axis sqrtQ 10 (edgeS stZ 10) rZ8.emax (edgeN stZ 10) =
      TrackFaceAxis.keep := by
    rw [track_edge_axis]
    rw [if_neg (by norm_num [edgeS, stZ, Mat3.entry, Mat3.col, cE, abscE])]
    have h2 : (edgeN stZ 10).dot (edgeN stZ 10) = 388224/390625 := by
      norm_num [edgeN, stZ, Mat3.entry, Mat3.col, cE, abscE]
    rw [if_neg ?hcmp]
    case hcmp =>
      rw [lengthReciprocal, h2, sqrtQ_d]
      norm_num [edgeS, stZ, rZ8, Mat3.entry, Mat3.col, cE, abscE]
  rw [stepE, htr]

theorem stepE11Z : stepE sqrtQ stZ 11 rZ8 = Option.some rZ := by
  norm_num [stepE, track_edge_axis, lengthReciprocal, edgeS, edgeN, stZ, rZ8, rZ,
    Mat3.entry, Mat3.col, Vec3.zero, cE, abscE, sqrtQ_b]

theorem stepE12Z : stepE sqrtQ stZ 12 rZ = Option.some rZ := by
  have htr : track_edge_axis sqrtQ 12 (edgeS stZ 12) rZ.emax (edgeN stZ 12) =
      TrackFaceAxis.keep := by
    rw [track_edge_axis]
    rw [if_neg (by norm_num [edgeS, stZ, Mat3.entry, Mat3.col, cE, abscE])]
    have h2 : (edgeN stZ 12).dot (edgeN stZ 12) = 58849/390625 := by
      norm_num [edgeN, stZ, Mat3.entry, Mat3.col, cE, abscE]
    rw [if_neg ?hcmp]
    case hcmp =>
      rw [lengthReciprocal, h2, sqrtQ_e]
      norm_num [edgeS, stZ, rZ, Mat3.entry, Mat3.col, cE, abscE]
  rw [stepE, htr]

theorem stepE13Z : stepE sqrtQ stZ 13 rZ = Option.some rZ := by
  have htr : track_edge_axis sqrtQ 13 (edgeS stZ 13) rZ.emax (edgeN stZ 13) =
      TrackFaceAxis.keep := by
    rw [track_edge_axis]
    rw [if_neg (by norm_num [edgeS, stZ, Mat3.entry, Mat3.col, cE, abscE])]
    have h2 : (edgeN stZ 13).dot (edgeN stZ 13) = 362401/390625 := by
      norm_num [edgeN, stZ, Mat3.entry, Mat3.col, cE, abscE]
    rw [if_neg ?hcmp]
    case hcmp =>
      rw [lengthReciprocal, h2, sqrtQ_c]
      norm_num [edgeS, stZ, rZ, Mat3.entry, Mat3.col, cE, abscE]
  rw [stepE, htr]

theorem stepE14Z : stepE sqrtQ stZ 14 rZ = Option.some rZ := by
  norm_num [stepE, track_edge_axis, lengthReciprocal, edgeS, edgeN, stZ, rZ,
    Mat3.entry, Mat3.col, Vec3.zero, cE, abscE, sqrtQ_a]

theorem edgePhaseZ : edgePhase sqrtQ stZ rZf = Option.some rZ := by
  rw [edgePhase, stepE6Z, Option.some_bind, stepE7Z, Option.some_bind, stepE8Z,
    Option.some_bind, stepE9Z, Option.some_bind, stepE10Z, Option.some_bind,
    stepE11Z, Option.some_bind, stepE12Z, Option.some_bind, stepE13Z,
    Option.some_bind, stepE14Z]

theorem searchPhaseZ : searchPhase sqrtQ stZ = Option.some rZ := by
  rw [searchPhase, facePhaseZ, Option.some_bind]
  rw [show stZ.parallel = false from rfl]
  simp only [Bool.false_eq_true, if_false]
  exact edgePhaseZ

theorem selectE : select rE = ⟨6, -56/25, ⟨0, -24/25, 7/25⟩⟩ := by
  norm_num [select, rE, REL_TOLERANCE, ABS_TOLERANCE]

theorem selectZ : select rZ = ⟨11, -1, ⟨-1, 0, 0⟩⟩ := by
  norm_num [select, rZ, REL_TOLERANCE, ABS_TOLERANCE]

theorem aeE : support_edge Transform.idt ⟨1, 1, 1⟩ ⟨0, -24/25, 7/25⟩ =
    (⟨1, -1, 1⟩, ⟨-1, -1, 1⟩) := by
  norm_num [support_edge, Transform.idt, Transform.tp3, Quat.id, Quat.conj,
    Quat.rotate, Mat3.fromQuat, Vec3.zero, abs_of_nonneg, abs_of_nonpos]

theorem beE : support_edge ⟨⟨0, 0, 0⟩, qE⟩ ⟨1, 1, 1⟩ ⟨0, 24/25, -7/25⟩ =
    (⟨233/625, 719/625, -31/25⟩, ⟨569/625, 817/625, 17/25⟩) := by
  norm_num [support_edge, Transform.tp3, Quat.conj, Quat.rotate, Mat3.fromQuat,
    qE, Vec3.zero, abs_of_nonneg, abs_of_nonpos]

theorem ecE : edges_contact ⟨1, -1, 1⟩ ⟨-1, -1, 1⟩ ⟨233/625, 719/625, -31/25⟩
    ⟨569/625, 817/625, 17/25⟩ =
    (⟨343193/362401, -1, 1⟩,
     ⟨343193/362401, 477599/362401, 293801/362401⟩) := by
  norm_num [edges_contact]

theorem edgeCaseE :
    edgeCase obbEA obbEB stE (-56/25) ⟨0, -24/25, 7/25⟩ = Option.some mE := by
  have hrot : stE.atx.rotation.rotate ⟨0, -24/25, 7/25⟩ = ⟨0, -24/25, 7/25⟩ := by
    norm_num [stE, Transform.idt, Quat.id, Quat.rotate]
  have hd : stE.btx.translation - stE.atx.translation = ⟨0, 0, 0⟩ := by
    norm_num [stE, Transform.idt, Vec3.zero]
  have hofl : oriFlip ⟨0, -24/25, 7/25⟩ (⟨0, 0, 0⟩ : Vec3) = ⟨0, -24/25, 7/25⟩ := by
    norm_num [oriFlip]
  have hae : support_edge stE.atx stE.ea ⟨0, -24/25, 7/25⟩ =
      (⟨1, -1, 1⟩, ⟨-1, -1, 1⟩) := by
    rw [show stE.atx = Transform.idt from rfl,
      show stE.ea = (⟨1, 1, 1⟩ : Vec3) from rfl]
    exact aeE
  have hneg : (-(⟨0, -24/25, 7/25⟩ : Vec3)) = (⟨0, 24/25, -7/25⟩ : Vec3) := by
    norm_num
  have hbe : support_edge stE.btx stE.eb (-(⟨0, -24/25, 7/25⟩ : Vec3)) =
      (⟨233/625, 719/625, -31/25⟩, ⟨569/625, 817/625, 17/25⟩) := by
    rw [hneg, show stE.btx = (⟨⟨0, 0, 0⟩, qE⟩ : Transform) from rfl,
      show stE.eb = (⟨1, 1, 1⟩ : Vec3) from rfl]
    exact beE
  simp only [edgeCase]
  rw [hrot, hd, hofl, hae, hbe]
  rw [show ((⟨1, -1, 1⟩, ⟨-1, -1, 1⟩) :
      Vec3 × Vec3).1 = ⟨1, -1, 1⟩ from rfl]
  rw [show ((⟨1, -1, 1⟩, ⟨-1, -1, 1⟩) :
      Vec3 × Vec3).2 = ⟨-1, -1, 1⟩ from rfl]
  rw [show ((⟨233/625, 719/625, -31/25⟩, ⟨569/625, 817/625, 17/25⟩) :
      Vec3 × Vec3).1 = ⟨233/625, 719/625, -31/25⟩ from rfl]
  rw [show ((⟨233/625, 719/625, -31/25⟩, ⟨569/625, 817/625, 17/25⟩) :
      Vec3 × Vec3).2 = ⟨569/625, 817/625, 17/25⟩ from rfl]
  rw [ecE]
  norm_num [mE, obbEA, obbEB]

/-- full evaluation of `box_to_box` on the edge-contact witness. -/
theorem box_to_box_edge : box_to_box sqrtQ obbEA obbEB = Option.some mE := by
  rw [box_to_box_eq, setupE, searchPhaseE]
  simp only [selectE]
  rw [if_neg (by norm_num [u32Max]), if_neg (by norm_num)]
  have hd : stE.btx.translation - stE.atx.translation = ⟨0, 0, 0⟩ := by
    norm_num [stE, Transform.idt, Vec3.zero]
  rw [hd]
  have hofl : oriFlip ⟨0, -24/25, 7/25⟩ (⟨0, 0, 0⟩ : Vec3) = ⟨0, -24/25, 7/25⟩ := by
    norm_num [oriFlip]
  rw [hofl]
  exact edgeCaseE

theorem aeZ : support_edge Transform.idt ⟨1, 1, 1⟩ ⟨-1, 0, 0⟩ =
    (⟨-1, 1, 1⟩, ⟨-1, -1, 1⟩) := by
  norm_num [support_edge, Transform.idt, Transform.tp3, Quat.id, Quat.conj,
    Quat.rotate, Mat3.fromQuat, Vec3.zero, abs_of_nonneg, abs_of_nonpos]

theorem beZ : support_edge ⟨⟨0, 0, 0⟩, qE⟩ ⟨0, 0, 1⟩ ⟨1, 0, 0⟩ =
    (⟨576/625, 168/625, -7/25⟩, ⟨576/625, 168/625, -7/25⟩) := by
  norm_num [support_edge, Transform.tp3, Quat.conj, Quat.rotate, Mat3.fromQuat,
    qE, Vec3.zero, abs_of_nonneg, abs_of_nonpos]

/-- extraction of the edge-branch division domain from the domains predicate. -/
theorem domains_edge_ok (sq : ℚ → ℚ) (a b : Obb) (r : SearchSt)
    (hsp : searchPhase sq (setup a b) = Option.some r)
    (hax1 : ¬(select r).axis = u32Max) (hax2 : ¬(select r).axis < 6)
    (hdom : box_to_box_domains sq a b) :
    edgesDomainOk
      (support_edge (setup a b).atx (setup a b).ea
        (oriFlip ((setup a b).atx.rotation.rotate
          (oriFlip (select r).n
            ((setup a b).btx.translation - (setup a b).atx.translation)))
          ((setup a b).btx.translation - (setup a b).atx.translation))).1
      (support_edge (setup a b).atx (setup a b).ea
        (oriFlip ((setup a b).atx.rotation.rotate
          (oriFlip (select r).n
            ((setup a b).btx.translation - (setup a b).atx.translation)))
          ((setup a b).btx.translation - (setup a b).atx.translation))).2
      (support_edge (setup a b).btx (setup a b).eb
        (-(oriFlip ((setup a b).atx.rotation.rotate
          (oriFlip (select r).n
            ((setup a b).btx.translation - (setup a b).atx.translation)))
          ((setup a b).btx.translation - (setup a b).atx.translation)))).1
      (support_edge (setup a b).btx (setup a b).eb
        (-(oriFlip ((setup a b).atx.rotation.rotate
          (oriFlip (select r).n
            ((setup a b).btx.translation - (setup a b).atx.translation)))
          ((setup a b).btx.translation - (setup a b).atx.translation)))).2 := by
  unfold box_to_box_domains at hdom
  rw [hsp] at hdom
  simp only [] at hdom
  rw [if_neg hax1, if_neg hax2] at hdom
  exact hdom

theorem domains_violated_Z : ¬ box_to_box_domains sqrtQ obbEA obbZB := by
  intro h
  have hsp : searchPhase sqrtQ (setup obbEA obbZB) = Option.some rZ := by
    rw [setupZ]
    exact searchPhaseZ
  have hok := domains_edge_ok sqrtQ obbEA obbZB rZ hsp
    (by rw [selectZ]; norm_num [u32Max]) (by rw [selectZ]; norm_num) h
  rw [setupZ, selectZ] at hok
  have hd : stZ.btx.translation - stZ.atx.translation = ⟨0, 0, 0⟩ := by
    norm_num [stZ, Transform.idt, Vec3.zero]
  have hofl : oriFlip ⟨-1, 0, 0⟩ (⟨0, 0, 0⟩ : Vec3) = ⟨-1, 0, 0⟩ := by
    norm_num [oriFlip]
  have hrot : stZ.atx.rotation.rotate ⟨-1, 0, 0⟩ = ⟨-1, 0, 0⟩ := by
    norm_num [stZ, Transform.idt, Quat.id, Quat.rotate]
  have hNred : oriFlip (stZ.atx.rotation.rotate
      (oriFlip (Sel.mk 11 (-1) ⟨-1, 0, 0⟩).n
        (stZ.btx.translation - stZ.atx.translation)))
      (stZ.btx.translation - stZ.atx.translation) = ⟨-1, 0, 0⟩ := by
    rw [show (Sel.mk 11 (-1) (⟨-1, 0, 0⟩ : Vec3)).n = (⟨-1, 0, 0⟩ : Vec3) from rfl,
      hd, hofl, hrot]
    exact hofl
  rw [hNred] at hok
  have hae : support_edge stZ.atx stZ.ea ⟨-1, 0, 0⟩ =
      (⟨-1, 1, 1⟩, ⟨-1, -1, 1⟩) := by
    rw [show stZ.atx = Transform.idt from rfl,
      show stZ.ea = (⟨1, 1, 1⟩ : Vec3) from rfl]
    exact aeZ
  have hneg : (-(⟨-1, 0, 0⟩ : Vec3)) = (⟨1, 0, 0⟩ : Vec3) := by norm_num
  have hbe : support_edge stZ.btx stZ.eb (-(⟨-1, 0, 0⟩ : Vec3)) =
      (⟨576/625, 168/625, -7/25⟩, ⟨576/625, 168/625, -7/25⟩) := by
    rw [hneg, show stZ.btx = (⟨⟨0, 0, 0⟩, qE⟩ : Transform) from rfl,
      show stZ.eb = (⟨0, 0, 1⟩ : Vec3) from rfl]
    exact beZ
  rw [hae, hbe] at hok
  exact hok.2 (by norm_num)

/-! ### The claims -/

/-- C1: every manifold returned by `box_to_box` has its normal oriented along
the center offset: `normal · (tB − tA) ≥ 0`, with `tA`, `tB` the translations
of the combined world transforms, on both the face and the edge paths. -/
theorem c1_normal_orientation (sq : ℚ → ℚ) (a b : Obb) (m : Manifold)
    (h : box_to_box sq a b = Option.some m) :
    0 ≤ m.normal.dot ((setup a b).btx.translation - (setup a b).atx.translation) := by
  obtain ⟨r, hr, hne, hcases⟩ := box_to_box_cases sq a b m h
  rcases hcases with ⟨hlt, hface⟩ | ⟨hge, hedge⟩
  · rw [faceCase_normal a b _ _ _ _ m hface]
    exact oriFlip_dot_nonneg _ _
  · rw [edgeCase_normal a b _ _ _ m hedge]
    exact oriFlip_dot_nonneg _ _

theorem c1_witness :
    box_to_box sqrtQ obbUA obbUB = Option.some mUnit ∧
      0 ≤ mUnit.normal.dot ((setup obbUA obbUB).btx.translation -
        (setup obbUA obbUB).atx.translation) :=
  ⟨box_to_box_unit, c1_normal_orientation sqrtQ obbUA obbUB mUnit box_to_box_unit⟩

/-- C2: two identical axis-aligned unit boxes (extents `(0.5, 0.5, 0.5)`,
identity rotations and offsets) centered at the same point produce a manifold
with exactly 4 contacts, penetration `−1`, and an axis-aligned normal. -/
theorem c2_coincident_unit_boxes :
    box_to_box sqrtQ obbUA obbUB = Option.some mUnit ∧
      mUnit.contacts.length = 4 ∧ mUnit.penetration = -1 ∧
      (mUnit.normal = ⟨1, 0, 0⟩ ∨ mUnit.normal = ⟨-1, 0, 0⟩ ∨
        mUnit.normal = ⟨0, 1, 0⟩ ∨ mUnit.normal = ⟨0, -1, 0⟩ ∨
        mUnit.normal = ⟨0, 0, 1⟩ ∨ mUnit.normal = ⟨0, 0, -1⟩) :=
  ⟨box_to_box_unit, rfl, rfl, Or.inl rfl⟩

/-- C3: when the selected axis is an edge axis (index ≥ 6), the returned
manifold holds exactly one contact, at the midpoint of the two closest points
of the support edges, with the contact and the manifold penetration both equal
to the selected margin. -/
theorem c3_edge_axis_contact (sq : ℚ → ℚ) (a b : Obb) (m : Manifold) (r : SearchSt)
    (hr : searchPhase sq (setup a b) = Option.some r)
    (hax : 6 ≤ (select r).axis)
    (h : box_to_box sq a b = Option.some m) :
    m.penetration = (select r).smax ∧
      m.contacts =
        [⟨((edges_contact
              (support_edge (setup a b).atx (setup a b).ea m.normal).1
              (support_edge (setup a b).atx (setup a b).ea m.normal).2
              (support_edge (setup a b).btx (setup a b).eb (-m.normal)).1
              (support_edge (setup a b).btx (setup a b).eb (-m.normal)).2).1 +
            (edges_contact
              (support_edge (setup a b).atx (setup a b).ea m.normal).1
              (support_edge (setup a b).atx (setup a b).ea m.normal).2
              (support_edge (setup a b).btx (setup a b).eb (-m.normal)).1
              (support_edge (setup a b).btx (setup a b).eb (-m.normal)).2).2) *
          ((1 : ℚ) / 2), (select r).smax⟩] := by
  obtain ⟨r2, hr2, hne, hcases⟩ := box_to_box_cases sq a b m h
  rw [hr] at hr2
  injection hr2 with hq
  subst hq
  rcases hcases with ⟨hlt, _⟩ | ⟨_, hedge⟩
  · omega
  · have hn := edgeCase_normal a b _ _ _ m hedge
    have hp := (edgeCase_contacts a b _ _ _ m hedge).1
    have hc := (edgeCase_contacts a b _ _ _ m hedge).2
    simp only [] at hc
    rw [← hn] at hc
    exact ⟨hp, hc⟩

theorem c3_witness :
    6 ≤ (select rE).axis ∧ mE.penetration = (select rE).smax :=
  ⟨by rw [selectE], (c3_edge_axis_contact sqrtQ obbEA obbEB mE rE
    (by rw [setupE]; exact searchPhaseE) (by rw [selectE])
    box_to_box_edge).1⟩

/-- C4: axis selection is exactly the biased comparison of the spec, with the
constants `0.95` and `0.01`, and the edge margin that enters the comparison is
the raw separation already scaled by the reciprocal cross-product length. -/
theorem c4_axis_selection_biased (r : SearchSt) (sq : ℚ → ℚ) (n : ℕ)
    (s smax : ℚ) (normal : Vec3) :
    REL_TOLERANCE = 95 / 100 ∧ ABS_TOLERANCE = 1 / 100 ∧
      select r =
        (if REL_TOLERANCE * r.emax > max r.amax r.bmax + ABS_TOLERANCE then
          ⟨r.eaxis, r.emax, r.ne⟩
        else if REL_TOLERANCE * r.bmax > r.amax + ABS_TOLERANCE then
          ⟨r.baxis, r.bmax, r.nb⟩
        else ⟨r.aaxis, r.amax, r.na⟩) ∧
      track_edge_axis sq n s smax normal =
        (if 0 < s then TrackFaceAxis.noCollision
        else if smax < s * lengthReciprocal sq normal then
          TrackFaceAxis.better n (s * lengthReciprocal sq normal)
            (normal * lengthReciprocal sq normal)
        else TrackFaceAxis.keep) :=
  ⟨rfl, rfl, rfl, rfl⟩

/-- C5: a strictly positive separation at any evaluated axis short-circuits the
whole query to `None`; in particular boxes separated along a shared world axis
by more than the sum of their extents produce `None`. -/
theorem c5_positive_separation_none (sq : ℚ → ℚ) (a b : Obb) (i : ℕ)
    (h : (i < 6 ∧ 0 < faceS (setup a b) i) ∨
      (6 ≤ i ∧ i < 15 ∧ (setup a b).parallel = false ∧
        0 < edgeS (setup a b) i)) :
    box_to_box sq a b = Option.none := by
  rw [box_to_box_eq]
  have hsp : searchPhase sq (setup a b) = Option.none := by
    rcases h with ⟨hi, hs⟩ | ⟨hi6, hi, hpar, hs⟩
    · unfold searchPhase
      rw [facePhase_none (setup a b) i hi hs]
      rfl
    · unfold searchPhase
      cases hf : facePhase (setup a b) with
      | none => rfl
      | some r0 =>
        rw [Option.some_bind, hpar]
        simp only [Bool.false_eq_true, if_false]
        exact edgePhase_none sq (setup a b) r0 i hi6 hi hs
  rw [hsp]

theorem c5_witness :
    0 < faceS (setup obbUA obbSB) 0 ∧
      box_to_box sqrtQ obbUA obbSB = Option.none := by
  have hs : 0 < faceS (setup obbUA obbSB) 0 := by
    norm_num [faceS, setup, obbUA, obbSB, Transform.compose, Transform.idt,
      Quat.qmul, Quat.conj, Quat.rotate, Quat.id, Mat3.fromQuat, Mat3.entry,
      Mat3.col, Vec3.zero, abs_of_nonneg]
  exact ⟨hs, c5_positive_separation_none sqrtQ obbUA obbSB 0
    (Or.inl ⟨by norm_num, hs⟩)⟩

/-- C6: when the near-parallel flag is set, the edge axes are never evaluated —
the search is exactly the face phase and the edge record keeps its sentinels —
so any returned manifold came from a face axis. -/
theorem c6_parallel_face_only (sq : ℚ → ℚ) (a b : Obb) (m : Manifold)
    (hpar : (setup a b).parallel = true)
    (hm : box_to_box sq a b = Option.some m) :
    searchPhase sq (setup a b) = facePhase (setup a b) ∧
      ∃ r, searchPhase sq (setup a b) = Option.some r ∧
        r.eaxis = u32Max ∧ r.emax = f32Min ∧ r.ne = Vec3.zero ∧
        (select r).axis < 6 := by
  refine ⟨searchPhase_parallel sq _ hpar, ?_⟩
  obtain ⟨r, hr, hne, hcases⟩ := box_to_box_cases sq a b m hm
  have hface := hr
  rw [searchPhase_parallel sq _ hpar] at hface
  obtain ⟨he, hm2, hn2, ha, hb⟩ := facePhase_fields _ r hface
  refine ⟨r, hr, he, hm2, hn2, ?_⟩
  rcases select_cases r with hsel | hsel | hsel
  · exfalso
    apply hne
    rw [hsel]
    exact he
  · rw [hsel]
    rcases hb with hbu | ⟨h3, h6⟩
    · exfalso
      apply hne
      rw [hsel]
      exact hbu
    · exact h6
  · rw [hsel]
    rcases ha with hau | h3
    · exfalso
      apply hne
      rw [hsel]
      exact hau
    · show r.aaxis < 6
      omega

theorem c6_witness :
    (setup obbUA obbUB).parallel = true ∧
      searchPhase sqrtQ (setup obbUA obbUB) = facePhase (setup obbUA obbUB) := by
  have hpar : (setup obbUA obbUB).parallel = true := by
    rw [setup_unit]
    rfl
  exact ⟨hpar,
    (c6_parallel_face_only sqrtQ obbUA obbUB mUnit hpar box_to_box_unit).1⟩

/-- C7: a returned manifold always carries at least one contact: the face path
returns `None` when clipping leaves nothing, and the edge path emits exactly
one contact. -/
theorem c7_nonempty_contacts (sq : ℚ → ℚ) (a b : Obb) (m : Manifold)
    (h : box_to_box sq a b = Option.some m) : m.contacts ≠ [] := by
  obtain ⟨r, hr, hne, hcases⟩ := box_to_box_cases sq a b m h
  rcases hcases with ⟨_, hface⟩ | ⟨_, hedge⟩
  · have hlen := (faceCase_contacts a b _ _ _ _ m hface).2.1
    intro hnil
    apply hlen
    rw [hnil]
    rfl
  · have hc := (edgeCase_contacts a b _ _ _ m hedge).2
    simp only [] at hc
    rw [hc]
    simp

theorem c7_witness : mUnit.contacts ≠ [] :=
  c7_nonempty_contacts sqrtQ obbUA obbUB mUnit box_to_box_unit

/-- C8: no returned manifold holds more than eight contacts, and none of the
four Sutherland–Hodgman pass buffers (nor the final clipped list) ever exceeds
eight vertices on any incident face. -/
theorem c8_contact_buffer_bound (sq : ℚ → ℚ) (a b : Obb) (m : Manifold)
    (h : box_to_box sq a b = Option.some m) (itx : Transform)
    (e0 n0 rpos eref : Vec3) (ces : CEdges) (basis : Mat3) :
    m.contacts.length ≤ 8 ∧
      (clipP1 rpos eref ces basis (compute_incident_face itx e0 n0)).length ≤ 8 ∧
      (clipP2 rpos eref ces basis (compute_incident_face itx e0 n0)).length ≤ 8 ∧
      (clipP3 rpos eref ces basis (compute_incident_face itx e0 n0)).length ≤ 8 ∧
      (clipP4 rpos eref ces basis (compute_incident_face itx e0 n0)).length ≤ 8 ∧
      (clip rpos eref ces basis (compute_incident_face itx e0 n0)).length ≤ 8 := by
  obtain ⟨d1, d2, d3, d4, hinc, hpg⟩ := incident_pgram itx e0 n0
  obtain ⟨l1, l2, l3, l4, l5⟩ :=
    clip_chain rpos eref ces basis _ d1 d2 d3 d4 hinc hpg
  refine ⟨?_, by omega, by omega, by omega, l4, l5⟩
  obtain ⟨r, hr, hne, hcases⟩ := box_to_box_cases sq a b m h
  rcases hcases with ⟨_, hface⟩ | ⟨_, hedge⟩
  · exact faceCase_contacts_le a b _ _ _ _ m hface
  · have hc := (edgeCase_contacts a b _ _ _ m hedge).2
    simp only [] at hc
    rw [hc]
    norm_num

theorem c8_witness :
    box_to_box sqrtQ obbUA obbUB = Option.some mUnit ∧
      mUnit.contacts.length ≤ 8 :=
  ⟨box_to_box_unit, (c8_contact_buffer_bound sqrtQ obbUA obbUB mUnit
    box_to_box_unit Transform.idt ⟨1, 1, 1⟩ ⟨1, 0, 0⟩ ⟨0, 0, 0⟩ ⟨1, 1, 1⟩
    ⟨0, 0, 0, 0⟩ (Mat3.fromQuat Quat.id)).1⟩

theorem c9_witness : box_to_box_domains sqrtQ obbUA obbUB :=
  box_to_box_domains_of_pos sqrtQ obbUA obbUB
    (by norm_num [obbUA, Transform.idt, Quat.id, Quat.normSq])
    (by norm_num [obbUA, Transform.idt, Quat.id, Quat.normSq])
    (by norm_num [obbUB, Transform.idt, Quat.id, Quat.normSq])
    (by norm_num [obbUB, Transform.idt, Quat.id, Quat.normSq])
    (by norm_num [obbUA]) (by norm_num [obbUB])

/-- C10: best-axis tracking is strict — a candidate equal to the current best
(raw for face axes, scaled for edge axes) never replaces it — and on the
coincident unit boxes all three face-A separations tie, so the earliest axis 0
holds the record and face B likewise keeps its earliest axis 3. -/
theorem c10_strict_tracking (sq : ℚ → ℚ) (st : Setup) (i : ℕ) (r : SearchSt)
    (hs : ¬ 0 < faceS st i) (hes : ¬ 0 < edgeS st i) :
    (faceS st i ≤ r.amax → stepA st i r = Option.some r) ∧
      (faceS st i ≤ r.bmax → stepB st i r = Option.some r) ∧
      (edgeS st i * lengthReciprocal sq (edgeN st i) ≤ r.emax →
        stepE sq st i r = Option.some r) ∧
      faceS stUnit 0 = faceS stUnit 1 ∧ faceS stUnit 1 = faceS stUnit 2 ∧
      facePhase stUnit = Option.some rUnit ∧ rUnit.aaxis = 0 ∧ rUnit.baxis = 3 := by
  refine ⟨?_, ?_, ?_, ?_, ?_, facePhase_unit, rfl, rfl⟩
  · intro hle
    unfold stepA track_face_axis
    rw [if_neg hs, if_neg (not_lt.mpr hle)]
  · intro hle
    unfold stepB track_face_axis
    rw [if_neg hs, if_neg (not_lt.mpr hle)]
  · intro hle
    unfold stepE track_edge_axis
    rw [if_neg hes, if_neg (not_lt.mpr hle)]
  · norm_num [faceS, stUnit]
  · norm_num [faceS, stUnit]

theorem c10_witness : stepA stUnit 1 rUnit = Option.some rUnit :=
  (c10_strict_tracking sqrtQ stUnit 1 rUnit
    (by norm_num [faceS, stUnit])
    (by norm_num [edgeS])).1
    (by norm_num [faceS, stUnit, rUnit])

end Physme
